import Mathlib

/-!
Verification development for the landlord-bot inbound-message routing and
autopilot/auto-reply orchestration layer.

The TypeScript sources are shallowly embedded: pure helpers become Lean
functions, the per-tenant debounce/cooldown scheduler becomes an explicit
step relation on a state record, and the repository's append-only log
operations become pure state transformers.  JavaScript strings are modelled
as Lean `String` with character-list (`List Char`) operations mirroring the
JS primitives actually used (`trim`, `toLowerCase`, `includes`, `join`).
-/

namespace LandlordBot

/-- Whitespace test used to model `String.prototype.trim` (the ASCII
whitespace characters relevant to this code base). -/
def isJsWs (c : Char) : Bool :=
  c = ' ' || c = '\t' || c = '\n' || c = '\r'

/-- Character-list version of JS `trim`: drop whitespace from both ends. -/
def trimChars (l : List Char) : List Char :=
  ((l.dropWhile isJsWs).reverse.dropWhile isJsWs).reverse

/-- JS `String.prototype.trim`. -/
def jsTrim (s : String) : String := String.mk (trimChars s.data)

/-- JS `a || b` for strings: the empty string is falsy. -/
def jsOrS (a b : String) : String := if a = "" then b else a

/-- JS `a || b` for (non-negative integer) numbers: `0` is falsy. -/
def jsOrN (a b : Nat) : Nat := if a = 0 then b else a

/-- JS `String.prototype.toLowerCase`, character-wise. -/
def jsToLower (s : String) : String := String.mk (s.data.map Char.toLower)

/-- Contiguous-sublist test on character lists (executable). -/
def listIncludes (needle : List Char) : List Char → Bool
  | [] => needle.isEmpty
  | c :: rest => needle.isPrefixOf (c :: rest) || listIncludes needle rest

/-- `listIncludes` decides the infix relation. -/
theorem listIncludes_iff (needle : List Char) (haystack : List Char) :
    listIncludes needle haystack = true ↔ needle <:+: haystack := by
  induction haystack with
  | nil => simp [listIncludes, List.isEmpty_iff]
  | cons c rest ih =>
    simp [listIncludes, List.isPrefixOf_iff_prefix, ih, List.infix_cons_iff]

/-- JS `haystack.includes(needle)`: contiguous substring test. -/
def jsIncludes (haystack needle : String) : Bool :=
  listIncludes needle.data haystack.data

/-! ## Debounce & cooldown delay computation (src/routes/webhooks.ts) -/

/-- `CRITICAL_KEYWORDS` from src/routes/webhooks.ts line 59. -/
def CRITICAL_KEYWORDS : List String :=
  ["fire", "water leak", "gas leak", "gas", "no power", "no heat", "flood", "smoke"]

/-- `containsCriticalKeyword` from src/routes/webhooks.ts lines 132-135. -/
def containsCriticalKeyword (text : String) : Bool :=
  CRITICAL_KEYWORDS.any fun kw => jsIncludes (jsToLower text) kw

/-- `DEFAULT_REPLY_DELAY_MS` (5 minutes). -/
def DEFAULT_REPLY_DELAY_MS : Nat := 5 * 60 * 1000

/-- `DEFAULT_COOLDOWN_MS` (1 hour between replies per tenant). -/
def DEFAULT_COOLDOWN_MS : Nat := 60 * 60 * 1000

/-- The persisted app settings consumed by the delay computation: whether a
database is configured, and the numeric values stored under the
`global_auto_reply_delay_minutes` / `global_auto_reply_cooldown_minutes`
keys (`none` models a missing record or an unparsable value). -/
structure SettingsDb where
  dbEnabled : Bool
  delayMinutesValue : Option Int
  cooldownMinutesValue : Option Int
deriving DecidableEq, Repr

/-- `getGlobalAutoReplyDelayMinutes` from src/services/webhookStatus.ts
lines 1011-1024: default 5; a stored negative (or unparsable) value also
falls back to 5; any stored value `≥ 0` (including 0) is returned as-is. -/
def getGlobalAutoReplyDelayMinutes (db : SettingsDb) : Nat :=
  if !db.dbEnabled then 5
  else
    match db.delayMinutesValue with
    | none => 5
    | some v => if v < 0 then 5 else v.toNat

/-- `getGlobalAutoReplyCooldownMinutes` from src/services/webhookStatus.ts
lines 1041-1054: default 60, same validation as the delay setting. -/
def getGlobalAutoReplyCooldownMinutes (db : SettingsDb) : Nat :=
  if !db.dbEnabled then 60
  else
    match db.cooldownMinutesValue with
    | none => 60
    | some v => if v < 0 then 60 else v.toNat

/-- `computeDelayMs` from src/routes/webhooks.ts lines 204-215.  `Math.round`
is exact on integer minutes, so `Math.max(0, Math.round(m * 60 * 1000))`
becomes `max 0 (m * 60 * 1000)`; the JS `|| DEFAULT` fallback (which treats a
computed 0 as falsy) is `jsOrN`. -/
def computeDelayMs (db : SettingsDb) (lastReplyAt : Option Nat) (now : Nat)
    (severity text : String) : Nat :=
  if severity == "high" || severity == "critical" || containsCriticalKeyword text then 0
  else
    let last := lastReplyAt.getD 0
    let cooldownMs := jsOrN (max 0 (getGlobalAutoReplyCooldownMinutes db * 60 * 1000))
      DEFAULT_COOLDOWN_MS
    let cooldownTarget := last + cooldownMs
    let delayMs := jsOrN (max 0 (getGlobalAutoReplyDelayMinutes db * 60 * 1000))
      DEFAULT_REPLY_DELAY_MS
    let baseTarget := now + delayMs
    max baseTarget cooldownTarget - now

/-- The intake-delay value (ms) that `computeDelayMs` actually uses after the
JS `||` fallback: a configured value of 0 minutes falls back to the default. -/
def effectiveDelayMs (db : SettingsDb) : Nat :=
  jsOrN (max 0 (getGlobalAutoReplyDelayMinutes db * 60 * 1000)) DEFAULT_REPLY_DELAY_MS

/-- The cooldown value (ms) that `computeDelayMs` actually uses after the JS
`||` fallback: a configured value of 0 minutes falls back to the default. -/
def effectiveCooldownMs (db : SettingsDb) : Nat :=
  jsOrN (max 0 (getGlobalAutoReplyCooldownMinutes db * 60 * 1000)) DEFAULT_COOLDOWN_MS

/-- Delay formula as worded by the claim for C3: the configured minute values
are used directly (a configured zero honored as zero), with the result
floored at zero. -/
def claimedDelayMs (db : SettingsDb) (lastReplyAt : Option Nat) (now : Nat) : Nat :=
  max 0 (max (now + getGlobalAutoReplyDelayMinutes db * 60 * 1000)
      (lastReplyAt.getD 0 + getGlobalAutoReplyCooldownMinutes db * 60 * 1000) - now)

/-- C2: for every inbound tenant message, if the classified severity is
"high" or "critical", or the raw text case-insensitively contains any
keyword of the fixed critical-keyword list as a substring, the computed
delay is exactly 0 (bypass). -/
theorem computeDelayMs_bypass (db : SettingsDb) (lastReplyAt : Option Nat) (now : Nat)
    (severity text : String)
    (h : severity = "high" ∨ severity = "critical" ∨
      ∃ kw ∈ CRITICAL_KEYWORDS, kw.data <:+: (jsToLower text).data) :
    computeDelayMs db lastReplyAt now severity text = 0 := by
  have hcond : (severity == "high" || severity == "critical" ||
      containsCriticalKeyword text) = true := by
    rcases h with h | h | ⟨kw, hkw, hinf⟩
    · simp [h]
    · simp [h]
    · have : containsCriticalKeyword text = true := by
        simp only [containsCriticalKeyword, List.any_eq_true]
        exact ⟨kw, hkw, by simpa [jsIncludes, listIncludes_iff] using hinf⟩
      simp [this]
  simp [computeDelayMs, hcond]

/-- Witness for C2 at a concrete input: the keyword "gas" occurs
case-insensitively in the text, so the delay is zero. -/
theorem computeDelayMs_bypass_witness :
    computeDelayMs ⟨false, none, none⟩ none 0 "low" "There is a GAS smell" = 0 :=
  computeDelayMs_bypass _ _ _ _ _ (Or.inr (Or.inr ⟨"gas", by decide, by decide⟩))

/-- Counterexample for C3: with a configured cooldown of 0 minutes (and the
default-equivalent 5-minute intake delay), the code does not honor the zero:
`jsOrN` treats the computed 0 ms as falsy and falls back to the 60-minute
default, so the computed delay is 3600000 ms where the claimed formula gives
300000 ms. -/
theorem computeDelayMs_zero_cooldown_not_honored :
    computeDelayMs ⟨true, some 5, some 0⟩ (some 1000000) 1000000 "normal"
        "small drip under sink" = 3600000 ∧
      claimedDelayMs ⟨true, some 5, some 0⟩ (some 1000000) 1000000 = 300000 ∧
      (3600000 : Nat) ≠ 300000 := by
  refine ⟨by decide, by decide, by decide⟩

/-- C3 (amended): for every non-bypass inbound tenant message the computed
delay equals `max (now + intake) (last + cooldown) - now` (floored at zero by
truncated subtraction), where intake and cooldown are the configured values
with the proviso that a configured zero falls back to the defaults of
5 minutes and 60 minutes respectively (`effectiveDelayMs` /
`effectiveCooldownMs`). -/
theorem computeDelayMs_formula (db : SettingsDb) (lastReplyAt : Option Nat) (now : Nat)
    (severity text : String)
    (h : (severity == "high" || severity == "critical" ||
      containsCriticalKeyword text) = false) :
    computeDelayMs db lastReplyAt now severity text =
      max (now + effectiveDelayMs db) (lastReplyAt.getD 0 + effectiveCooldownMs db) - now := by
  simp only [computeDelayMs, h, Bool.false_eq_true, if_false, effectiveDelayMs,
    effectiveCooldownMs]

/-- Witness for C3's amended theorem at a concrete non-bypass input. -/
theorem computeDelayMs_formula_witness :
    ((("normal" : String) == "high" || ("normal" : String) == "critical" ||
        containsCriticalKeyword "small drip") = false) ∧
      computeDelayMs ⟨false, none, none⟩ none 7 "normal" "small drip" =
        max (7 + effectiveDelayMs ⟨false, none, none⟩)
          ((none : Option Nat).getD 0 + effectiveCooldownMs ⟨false, none, none⟩) - 7 :=
  ⟨by decide, computeDelayMs_formula _ _ _ _ _ (by decide)⟩

/-! ## Conversation records and the repository's append-only operations
(src/services/webhookStatus.ts, third segment). -/

/-- Chat-log roles. -/
inductive ChatRole
  | tenant
  | landlord
  | ai
deriving DecidableEq, Repr

/-- One chat-log entry (role + content; the stored `createdAt`/`meta` fields
carry no claim-relevant information). -/
structure ChatEntry where
  role : ChatRole
  content : String
deriving DecidableEq, Repr

/-- One decision-log (autopilot-log) entry. -/
structure AutoEntry where
  type : String
  message : String
  status : Option String
deriving DecidableEq, Repr

/-- A maintenance-request record (conversation).  `triageSeverity` models the
stored `triageJson` at the granularity the code reads it: `none` when no
triage object is stored, `some s` for a stored object whose
`classification?.severity` chain yields `s` (with `""` for a missing
severity, which JS `||` treats like an absent one).  `aiDraftText` models the
stored `aiDraft` object's `draft` field the same way. -/
structure Record where
  chatLog : List ChatEntry
  autopilotLog : List AutoEntry
  autopilotEnabled : Bool
  autopilotStatus : String
  triageSeverity : Option String
  aiDraftText : Option String
  landlordReply : String
deriving DecidableEq, Repr, Inhabited

/-- `normalizeChatLog` (webhookStatus.ts lines 488-504): on every re-read of
the stored chat log, entries with a falsy `content` or an unknown role are
dropped.  In the typed model roles are always known, so exactly the
empty-content entries are removed. -/
def normalizeChatLog (log : List ChatEntry) : List ChatEntry :=
  log.filter fun e => !(e.content == "")

/-- `normalizeAutopilotLog` (webhookStatus.ts lines 506-523): entries with a
falsy `type` or `message` are dropped on every re-read. -/
def normalizeAutopilotLog (log : List AutoEntry) : List AutoEntry :=
  log.filter fun e => !(e.type == "") && !(e.message == "")

/-- `appendChatMessage` (webhookStatus.ts lines 688-718): rebuild the stored
chat log through `normalizeChatLog`, push one entry, optionally overwrite
`landlordReply`. -/
def appendChatMessage (r : Record) (role : ChatRole) (content : String)
    (setLandlordReply : Option String) : Record :=
  { r with
    chatLog := normalizeChatLog r.chatLog ++ [⟨role, content⟩]
    landlordReply := setLandlordReply.getD r.landlordReply }

/-- `logAutopilotEvent` (webhookStatus.ts lines 846-876): rebuild the stored
decision log through `normalizeAutopilotLog`, append one entry; the
conversation's status token becomes `status` when given. -/
def logAutopilotEvent (r : Record) (type message : String) (status : Option String) : Record :=
  { r with
    autopilotLog := normalizeAutopilotLog r.autopilotLog ++ [⟨type, message, status⟩]
    autopilotStatus := status.getD r.autopilotStatus }

/-- `setAutopilotEnabled` (webhookStatus.ts lines 819-844): flip the enabled
flag, set the status token, and append a `config` decision entry to the
normalized decision log (an empty note falls back to the default message via
JS `||`). -/
def setAutopilotEnabled (r : Record) (enabled : Bool) (note : Option String) : Record :=
  { r with
    autopilotEnabled := enabled
    autopilotStatus := if enabled then "idle" else "disabled"
    autopilotLog := normalizeAutopilotLog r.autopilotLog ++
      [⟨"config",
        jsOrS (note.getD "") (if enabled then "Autopilot enabled" else "Autopilot disabled"),
        some (if enabled then "enabled" else "disabled")⟩] }

/-- `updateMaintenanceAnalysis` (webhookStatus.ts lines 734-757): replace the
stored triage / draft when provided; both logs are untouched. -/
def updateMaintenanceAnalysis (r : Record) (severity : Option String)
    (draft : Option String) : Record :=
  { r with
    triageSeverity := match severity with
      | some s => some s
      | none => r.triageSeverity
    aiDraftText := match draft with
      | some d => some d
      | none => r.aiDraftText }

/-- Severity used by an autopilot evaluation
(`triage?.classification?.severity || record?.triageJson?...severity ||
"unknown"`, lowercased), webhooks.ts lines 144-146.  `triage = none` models a
call without a fresh triage. -/
def autopilotSeverity (r : Record) (triage : Option String) : String :=
  jsToLower (jsOrS (triage.getD "") (jsOrS (r.triageSeverity.getD "") "unknown"))

/-- Draft text used by an autopilot evaluation
(`(aiDraft?.draft || record?.aiDraft?.draft || "").trim()`), webhooks.ts
line 176. -/
def autopilotDraftText (r : Record) (aiDraft : Option String) : String :=
  jsTrim (jsOrS (aiDraft.getD "") (r.aiDraftText.getD ""))

/-- `SAFE_AUTOPILOT_SEVERITIES.has severity` (webhooks.ts line 58). -/
def isSafeAutopilotSeverity (severity : String) : Bool :=
  severity == "low" || severity == "normal"

/-- `maybeRunAutopilot` from src/routes/webhooks.ts lines 142-202 (the
maintenance-list.js copy at lines 74-137 has the identical gate structure).
Returns the updated record and whether an auto-reply was appended.
`record = none` models a missing record / falsy `record.id`. -/
def maybeRunAutopilot (record : Option Record) (triage : Option String)
    (aiDraft : Option String) (reason : String) : Option Record × Bool :=
  match record with
  | none => (none, false)
  | some r =>
    if !r.autopilotEnabled then (some r, false)
    else
      let severity := autopilotSeverity r triage
      let r1 := logAutopilotEvent r "system" "Autopilot evaluating latest activity"
        (some "evaluating")
      if !isSafeAutopilotSeverity severity then
        (some (logAutopilotEvent r1 "skip" ("Autopilot blocked at severity " ++ severity)
          (some "blocked_severity")), false)
      else if !((r.chatLog.getLast?.map ChatEntry.role) == some ChatRole.tenant) then
        (some (logAutopilotEvent r1 "skip" "Autopilot idle (no tenant awaiting reply)"
          (some "idle")), false)
      else
        let text := autopilotDraftText r aiDraft
        if text == "" then
          (some (logAutopilotEvent r1 "skip" "Autopilot waiting for draft content"
            (some "awaiting_draft")), false)
        else
          let r2 := appendChatMessage r1 ChatRole.ai text (some text)
          (some (logAutopilotEvent r2 "auto_reply" "Autopilot sent reply using latest draft"
            (some "auto_replied")), true)

/-- Chat log of an optional record (empty when absent). -/
def chatLogOf (record : Option Record) : List ChatEntry :=
  (record.map Record.chatLog).getD []

/-- The four autopilot gates of the claim for C1, read off the inputs:
enabled flag, safe severity, last chat entry from the tenant, and a
non-empty draft text. -/
def autopilotGates (record : Option Record) (triage : Option String)
    (aiDraft : Option String) : Bool :=
  match record with
  | none => false
  | some r =>
    r.autopilotEnabled &&
      isSafeAutopilotSeverity (autopilotSeverity r triage) &&
      ((r.chatLog.getLast?.map ChatEntry.role) == some ChatRole.tenant) &&
      !(autopilotDraftText r aiDraft == "")

/-- C1: the autopilot evaluation appends an "ai"-role chat entry exactly when
all four gates hold (enabled, severity in the safe set, last chat entry has
role tenant, non-empty draft text); if any gate fails, the chat log is left
exactly as it was.  When the gates hold, the write goes through
`appendChatMessage`, whose `normalizeChatLog` rebuild the equation reflects.
Stated as an equation on the resulting chat log, which gives the claim's
"only when" direction and its converse at once. -/
theorem maybeRunAutopilot_chatLog (record : Option Record) (triage : Option String)
    (aiDraft : Option String) (reason : String) :
    chatLogOf (maybeRunAutopilot record triage aiDraft reason).1 =
      (if autopilotGates record triage aiDraft then
        normalizeChatLog (chatLogOf record) ++
          [⟨ChatRole.ai, autopilotDraftText record.iget aiDraft⟩]
      else chatLogOf record) := by
  match record with
  | none => simp [maybeRunAutopilot, autopilotGates, chatLogOf]
  | some r =>
    cases hEn : r.autopilotEnabled with
    | false =>
      have hG : autopilotGates (some r) triage aiDraft = false := by
        simp [autopilotGates, hEn]
      simp [maybeRunAutopilot, hEn, hG, chatLogOf]
    | true =>
      cases hSev : isSafeAutopilotSeverity (autopilotSeverity r triage) with
      | false =>
        have hG : autopilotGates (some r) triage aiDraft = false := by
          simp [autopilotGates, hEn, hSev]
        simp [maybeRunAutopilot, hEn, hSev, hG, chatLogOf, logAutopilotEvent]
      | true =>
        cases hLast : ((r.chatLog.getLast?.map ChatEntry.role) == some ChatRole.tenant) with
        | false =>
          have hG : autopilotGates (some r) triage aiDraft = false := by
            simp [autopilotGates, hEn, hSev, hLast]
          simp [maybeRunAutopilot, hEn, hSev, hLast, hG, chatLogOf, logAutopilotEvent]
        | true =>
          cases hText : (autopilotDraftText r aiDraft == "") with
          | true =>
            have hG : autopilotGates (some r) triage aiDraft = false := by
              simp [autopilotGates, hEn, hSev, hLast, hText]
            simp [maybeRunAutopilot, hEn, hSev, hLast, hText, hG, chatLogOf,
              logAutopilotEvent]
          | false =>
            have hG : autopilotGates (some r) triage aiDraft = true := by
              simp [autopilotGates, hEn, hSev, hLast, hText]
            simp [maybeRunAutopilot, hEn, hSev, hLast, hText, hG, chatLogOf,
              logAutopilotEvent, appendChatMessage]

/-! ### C6: append-only chat and decision logs across operation sequences -/

/-- One operation on a conversation, covering the repository mutations the
routing layer performs: chat appends, decision-log appends, autopilot
enable/disable, analysis updates, and whole autopilot evaluations. -/
inductive RepoOp
  | appendChat (role : ChatRole) (content : String) (setLandlordReply : Option String)
  | logEvent (type message : String) (status : Option String)
  | setAutopilot (enabled : Bool) (note : Option String)
  | updateAnalysis (severity : Option String) (draft : Option String)
  | runAutopilot (triage : Option String) (aiDraft : Option String) (reason : String)

/-- Apply one operation to a record. -/
def applyOp (r : Record) (op : RepoOp) : Record :=
  match op with
  | .appendChat role content setLandlordReply => appendChatMessage r role content setLandlordReply
  | .logEvent type message status => logAutopilotEvent r type message status
  | .setAutopilot enabled note => setAutopilotEnabled r enabled note
  | .updateAnalysis severity draft => updateMaintenanceAnalysis r severity draft
  | .runAutopilot triage aiDraft reason =>
    ((maybeRunAutopilot (some r) triage aiDraft reason).1).getD r

/-- Apply a sequence of operations left to right. -/
def applyOps (r : Record) (ops : List RepoOp) : Record :=
  ops.foldl applyOp r

/-- `normalizeChatLog` is idempotent. -/
theorem normalizeChatLog_idem (l : List ChatEntry) :
    normalizeChatLog (normalizeChatLog l) = normalizeChatLog l := by
  unfold normalizeChatLog
  apply List.filter_eq_self.mpr
  intro a ha
  exact (List.mem_filter.mp ha).2

/-- `normalizeAutopilotLog` is idempotent. -/
theorem normalizeAutopilotLog_idem (l : List AutoEntry) :
    normalizeAutopilotLog (normalizeAutopilotLog l) = normalizeAutopilotLog l := by
  unfold normalizeAutopilotLog
  apply List.filter_eq_self.mpr
  intro a ha
  exact (List.mem_filter.mp ha).2

/-- `normalizeChatLog` distributes over append. -/
theorem normalizeChatLog_append (l m : List ChatEntry) :
    normalizeChatLog (l ++ m) = normalizeChatLog l ++ normalizeChatLog m :=
  List.filter_append _ _

/-- `normalizeAutopilotLog` distributes over append. -/
theorem normalizeAutopilotLog_append (l m : List AutoEntry) :
    normalizeAutopilotLog (l ++ m) = normalizeAutopilotLog l ++ normalizeAutopilotLog m :=
  List.filter_append _ _

/-- Normalized view of the chat log after an append. -/
theorem appendChatMessage_normalized (r : Record) (role : ChatRole) (content : String)
    (slr : Option String) :
    normalizeChatLog (appendChatMessage r role content slr).chatLog =
      normalizeChatLog r.chatLog ++ normalizeChatLog [⟨role, content⟩] := by
  show normalizeChatLog (normalizeChatLog r.chatLog ++ [⟨role, content⟩]) = _
  rw [normalizeChatLog_append, normalizeChatLog_idem]

/-- Normalized view of the decision log after a logged event. -/
theorem logAutopilotEvent_normalized (r : Record) (type message : String)
    (status : Option String) :
    normalizeAutopilotLog (logAutopilotEvent r type message status).autopilotLog =
      normalizeAutopilotLog r.autopilotLog ++ normalizeAutopilotLog [⟨type, message, status⟩] := by
  show normalizeAutopilotLog (normalizeAutopilotLog r.autopilotLog ++ [⟨type, message, status⟩]) = _
  rw [normalizeAutopilotLog_append, normalizeAutopilotLog_idem]

/-- The normalized views of both logs of `r'` extend those of `r`. -/
def RecordLogsExtend (r r' : Record) : Prop :=
  normalizeChatLog r.chatLog <+: normalizeChatLog r'.chatLog ∧
    normalizeAutopilotLog r.autopilotLog <+: normalizeAutopilotLog r'.autopilotLog

/-- `RecordLogsExtend` is reflexive. -/
theorem RecordLogsExtend.rfl (r : Record) : RecordLogsExtend r r :=
  ⟨List.prefix_rfl, List.prefix_rfl⟩

/-- `RecordLogsExtend` is transitive. -/
theorem RecordLogsExtend.trans {r1 r2 r3 : Record} (h1 : RecordLogsExtend r1 r2)
    (h2 : RecordLogsExtend r2 r3) : RecordLogsExtend r1 r3 :=
  ⟨h1.1.trans h2.1, h1.2.trans h2.2⟩

/-- A chat append extends the normalized views. -/
theorem RecordLogsExtend.append (r : Record) (role : ChatRole) (content : String)
    (slr : Option String) : RecordLogsExtend r (appendChatMessage r role content slr) := by
  refine ⟨?_, List.prefix_rfl⟩
  rw [appendChatMessage_normalized]
  exact List.prefix_append _ _

/-- A logged decision extends the normalized views. -/
theorem RecordLogsExtend.log (r : Record) (type message : String) (status : Option String) :
    RecordLogsExtend r (logAutopilotEvent r type message status) := by
  refine ⟨List.prefix_rfl, ?_⟩
  rw [logAutopilotEvent_normalized]
  exact List.prefix_append _ _

/-- Normalized views only extend under every single operation. -/
theorem applyOp_normalized_extend (r : Record) (op : RepoOp) :
    RecordLogsExtend r (applyOp r op) := by
  cases op with
  | appendChat role content slr => exact RecordLogsExtend.append r role content slr
  | logEvent type message status => exact RecordLogsExtend.log r type message status
  | setAutopilot enabled note =>
    refine ⟨List.prefix_rfl, ?_⟩
    show normalizeAutopilotLog r.autopilotLog <+:
      normalizeAutopilotLog (normalizeAutopilotLog r.autopilotLog ++ _)
    rw [normalizeAutopilotLog_append, normalizeAutopilotLog_idem]
    exact List.prefix_append _ _
  | updateAnalysis severity draft => exact RecordLogsExtend.rfl r
  | runAutopilot triage aiDraft reason =>
    show RecordLogsExtend r ((maybeRunAutopilot (some r) triage aiDraft reason).1.getD r)
    cases hEn : r.autopilotEnabled with
    | false =>
      simp only [maybeRunAutopilot, hEn, Bool.not_false, if_true, Option.getD_some]
      exact RecordLogsExtend.rfl r
    | true =>
      cases hSev : isSafeAutopilotSeverity (autopilotSeverity r triage) with
      | false =>
        simp only [maybeRunAutopilot, hEn, hSev, Bool.not_true, Bool.not_false,
          Bool.false_eq_true, if_false, if_true, Option.getD_some]
        exact (RecordLogsExtend.log r _ _ _).trans (RecordLogsExtend.log _ _ _ _)
      | true =>
        cases hLast : ((r.chatLog.getLast?.map ChatEntry.role) == some ChatRole.tenant) with
        | false =>
          simp only [maybeRunAutopilot, hEn, hSev, hLast, Bool.not_true, Bool.not_false,
            Bool.false_eq_true, if_false, if_true, Option.getD_some]
          exact (RecordLogsExtend.log r _ _ _).trans (RecordLogsExtend.log _ _ _ _)
        | true =>
          cases hText : (autopilotDraftText r aiDraft == "") with
          | true =>
            simp only [maybeRunAutopilot, hEn, hSev, hLast, hText, Bool.not_true,
              Bool.not_false, Bool.false_eq_true, if_false, if_true, Option.getD_some]
            exact (RecordLogsExtend.log r _ _ _).trans (RecordLogsExtend.log _ _ _ _)
          | false =>
            simp only [maybeRunAutopilot, hEn, hSev, hLast, hText, Bool.not_true,
              Bool.not_false, Bool.false_eq_true, if_false, if_true, Option.getD_some]
            exact ((RecordLogsExtend.log r _ _ _).trans
              (RecordLogsExtend.append _ _ _ _)).trans (RecordLogsExtend.log _ _ _ _)

/-- C6 (amended): across any sequence of operations, the logs are append-only
up to the repository's normalization rebuild: the normalized views (entries
with non-empty content, resp. non-empty type and message — exactly what every
read-back retains) are prefix-preserved and their lengths non-decreasing. -/
theorem applyOps_normalized_append_only (r : Record) (ops : List RepoOp) :
    (normalizeChatLog r.chatLog <+: normalizeChatLog (applyOps r ops).chatLog ∧
      normalizeAutopilotLog r.autopilotLog <+:
        normalizeAutopilotLog (applyOps r ops).autopilotLog) ∧
    ((normalizeChatLog r.chatLog).length ≤
        (normalizeChatLog (applyOps r ops).chatLog).length ∧
      (normalizeAutopilotLog r.autopilotLog).length ≤
        (normalizeAutopilotLog (applyOps r ops).autopilotLog).length) := by
  have main : normalizeChatLog r.chatLog <+: normalizeChatLog (applyOps r ops).chatLog ∧
      normalizeAutopilotLog r.autopilotLog <+:
        normalizeAutopilotLog (applyOps r ops).autopilotLog := by
    induction ops generalizing r with
    | nil => exact ⟨List.prefix_rfl, List.prefix_rfl⟩
    | cons op rest ih =>
      have h1 := applyOp_normalized_extend r op
      have h2 := ih (applyOp r op)
      exact ⟨h1.1.trans h2.1, h1.2.trans h2.2⟩
  exact ⟨main, main.1.length_le, main.2.length_le⟩

/-- An empty record for the C6 counterexample. -/
def c6Rec : Record := ⟨[], [], false, "", none, none, ""⟩

/-- Counterexample for C6 as stated: the landlord path can store a chat entry
with empty content (a whitespace-only media caption yields `text = ""`), and
the very next append's `normalizeChatLog` rebuild removes it — so a
previously written entry is removed and the raw log is not append-only. -/
theorem chat_entry_removed_counterexample :
    (applyOps c6Rec [.appendChat .landlord "" (some "")]).chatLog =
        [⟨ChatRole.landlord, ""⟩] ∧
      (applyOps c6Rec [.appendChat .landlord "" (some ""),
          .appendChat .ai "hi" none]).chatLog = [⟨ChatRole.ai, "hi"⟩] ∧
      ¬((⟨ChatRole.landlord, ""⟩ : ChatEntry) ∈
        (applyOps c6Rec [.appendChat .landlord "" (some ""),
          .appendChat .ai "hi" none]).chatLog) := by
  refine ⟨by decide, by decide, by decide⟩

/-! ## Per-tenant debounce scheduler (src/routes/webhooks.ts lines 58-342,
tenant path lines 524-620).  The `pendingTenantReplies` /
`lastReplySentAt` maps are modelled for one tenant; the scheduler is an
explicit step relation whose events are: an inbound tenant message
(`arrive`), a bucket timer firing (`flushBegin`, the synchronous prefix of
`flushTenantReply` up to the bucket deletion), and the completion of the
flush's asynchronous work (`flushEnd`).  External collaborators (classifier,
draft generator, directory, transport configuration) are oracle fields of
`SchedulerEnv`, as the spec treats them. -/

/-- `createMaintenanceRequest` (webhookStatus.ts lines 535-580) restricted to
the fields of `Record`: chat log seeded with the tenant message, decision log
empty, status token "idle" when autopilot is enabled on creation. -/
def createMaintenanceRequest (message : String) (severity : String)
    (draft : Option String) (autopilotEnabled : Bool) : Record :=
  { chatLog := [⟨ChatRole.tenant, message⟩]
    autopilotLog := []
    autopilotEnabled := autopilotEnabled
    autopilotStatus := if autopilotEnabled then "idle" else ""
    triageSeverity := some severity
    aiDraftText := draft
    landlordReply := "" }

/-- Collaborators and configuration visible to the tenant path, per the
spec's external-interface contracts: the classifier and draft generator are
opaque text-indexed oracles; `canAutoReply` folds
`getGlobalAutoReplyEnabled().enabled && tenant.autoReplyEnabled !== false`;
`tenantExists` is whether `getTenantById` succeeds during a flush. -/
structure SchedulerEnv where
  settings : SettingsDb
  severityOf : String → String
  draftOf : String → String
  canAutoReply : Bool
  tenantExists : Bool
  landlordNumbers : List String
  tenantName : String
  tenantPhone : String
  replyTo : String

/-- One pending-reply bucket (webhooks.ts lines 62-70): buffered fragments in
arrival order and the scheduled timer expiry.  `cooldownTarget` records the
`cooldownTarget` value (`last + cooldownMs`) that `computeDelayMs` used when
the timer was last (re)scheduled. -/
structure Bucket where
  messages : List String
  fireAt : Nat
  cooldownTarget : Nat
deriving DecidableEq, Repr

/-- Snapshot captured by an in-flight flush after the bucket was deleted. -/
structure FlushCtx where
  messages : List String
  cooldownTarget : Nat
deriving DecidableEq, Repr

/-- Kind of outbound transport call. -/
inductive SendKind
  | immediateDraft
  | batchedDraft
  | landlordAlert
  | landlordAssist
  | contractorRelay
  | forwardedDraft
deriving DecidableEq, Repr

/-- One recorded outbound send.  `cooldownTarget` carries, for batched
(debounced) draft sends, the cooldown target of the bucket that produced the
send; it is 0 for the other kinds. -/
structure Send where
  sentAt : Nat
  kind : SendKind
  dest : String
  text : String
  cooldownTarget : Nat
deriving DecidableEq, Repr

/-- Scheduler state for one tenant: current time, the tenant's continuing
conversation, the pending bucket, in-flight flush snapshots, the
last-auto-reply timestamp, and observation logs of transport sends and of
completed classify→draft→send cycles. -/
structure SchedState where
  now : Nat
  record : Option Record
  pending : Option Bucket
  inflight : List FlushCtx
  lastReplyAt : Option Nat
  sends : List Send
  cycles : List String
deriving DecidableEq, Repr

/-- Severity string the route derives for an inbound text
(`(triage?.classification?.severity || "normal").toString().toLowerCase()`,
webhooks.ts line 535). -/
def arriveSeverity (env : SchedulerEnv) (text : String) : String :=
  jsToLower (jsOrS (env.severityOf text) "normal")

/-- The bypass condition of `computeDelayMs` for an inbound text. -/
def bypassCondOf (env : SchedulerEnv) (text : String) : Bool :=
  arriveSeverity env text == "high" || arriveSeverity env text == "critical" ||
    containsCriticalKeyword text

/-- Delay the route computes for an inbound text (webhooks.ts lines 533-537). -/
def arriveDelay (env : SchedulerEnv) (lastReplyAt : Option Nat) (t : Nat)
    (text : String) : Nat :=
  computeDelayMs env.settings lastReplyAt t (arriveSeverity env text) text

/-- JS `list.join(sep)`. -/
def jsJoin (sep : String) : List String → String
  | [] => ""
  | [m] => m
  | m :: ms => m ++ sep ++ jsJoin sep (ms)

/-- Landlord alert text (webhooks.ts lines 611-615 and 332-336): severity and
draft come from the route's `record` variable when it carries them, else from
the fresh triage/draft of this cycle. -/
def alertText (env : SchedulerEnv) (recordVar : Record) (content : String)
    (freshSeverity freshDraft : String) : String :=
  let severity := jsOrS (match recordVar.triageSeverity with
    | some s => s
    | none => freshSeverity) "normal"
  let draft := jsOrS (match recordVar.aiDraftText with
    | some d => d
    | none => freshDraft) "(no draft yet)"
  "Tenant " ++ env.tenantName ++ " (" ++ jsOrS env.tenantPhone env.replyTo ++ ") says: " ++
    content ++ "\nSeverity: " ++ severity ++ "\nDraft: " ++ draft

/-- The tenant path of the Evolution webhook (webhooks.ts lines 524-620):
triage the message, compute the delay, always record the tenant message on
the conversation, then either process immediately (draft, conditional
auto-send, landlord alert — the bypass path) or append to the pending bucket
and reset its timer (`queueTenantReply`, lines 217-246). -/
def arriveCore (env : SchedulerEnv) (st : SchedState) (t : Nat) (text : String) : SchedState :=
  let rawSeverity := env.severityOf text
  let delayMs := arriveDelay env st.lastReplyAt t text
  let record1 : Record :=
    match st.record with
    | some r => appendChatMessage r ChatRole.tenant text none
    | none => createMaintenanceRequest text rawSeverity none true
  let record2 := updateMaintenanceAnalysis record1 (some rawSeverity) none
  if delayMs == 0 then
    let draft := env.draftOf text
    let record3 := updateMaintenanceAnalysis record2 (some rawSeverity) (some draft)
    let draftText := jsTrim draft
    let doSend := !(draftText == "") && env.canAutoReply
    let sends1 := if doSend then [⟨t, SendKind.immediateDraft, env.replyTo, draftText, 0⟩] else []
    let alert := alertText env record1 text rawSeverity draft
    { st with
      now := t
      record := some record3
      sends := st.sends ++ sends1 ++
        env.landlordNumbers.map fun n => ⟨t, SendKind.landlordAlert, n, alert, 0⟩
      lastReplyAt := if doSend then some t else st.lastReplyAt
      cycles := st.cycles ++ [text] }
  else
    { st with
      now := t
      record := some record2
      pending := some
        { messages := (st.pending.map Bucket.messages).getD [] ++ [text]
          fireAt := t + delayMs
          cooldownTarget := st.lastReplyAt.getD 0 + effectiveCooldownMs env.settings } }

/-- The asynchronous tail of `flushTenantReply` (webhooks.ts lines 254-341),
operating on the snapshot taken at `flushBegin`: look up the tenant, combine
the buffered fragments, classify and draft the combined text, record it on
the conversation (creating one if needed), conditionally auto-send the
draft, and broadcast the landlord alert. -/
def flushEndCore (env : SchedulerEnv) (st : SchedState) (t : Nat) (ctx : FlushCtx) : SchedState :=
  if !env.tenantExists then st
  else
    let combined := jsTrim (jsJoin "\n---\n" ctx.messages)
    let severity := env.severityOf combined
    let draft := env.draftOf combined
    let (recordUpdated, recordVar) :=
      match st.record with
      | some r =>
        let r1 := updateMaintenanceAnalysis r (some severity) (some draft)
        (appendChatMessage r1 ChatRole.tenant combined none, r)
      | none =>
        let r0 := createMaintenanceRequest combined severity (some draft) true
        (appendChatMessage r0 ChatRole.tenant combined none, r0)
    let draftText := jsTrim draft
    let doSend := !(draftText == "") && env.canAutoReply
    let recordFinal :=
      if doSend then appendChatMessage recordUpdated ChatRole.ai draftText none
      else recordUpdated
    let sends1 := if doSend then [⟨t, SendKind.batchedDraft, env.replyTo, draftText,
      ctx.cooldownTarget⟩] else []
    let alert := alertText env recordVar combined severity draft
    { st with
      record := some recordFinal
      sends := st.sends ++ sends1 ++
        env.landlordNumbers.map fun n => ⟨t, SendKind.landlordAlert, n, alert, 0⟩
      lastReplyAt := if doSend then some t else st.lastReplyAt
      cycles := st.cycles ++ [combined] }

/-- Scheduler events: an inbound tenant message, a bucket timer firing (which
synchronously deletes the bucket), and the in-flight flush completing. -/
inductive SchedEvent
  | arrive (t : Nat) (text : String)
  | flushBegin (t : Nat)
  | flushEnd (t : Nat)
deriving DecidableEq, Repr

/-- One scheduler step.  `none` marks an impossible event (time going
backwards, a timer firing without a matured bucket, a flush completing with
nothing in flight). -/
def schedStep (env : SchedulerEnv) (st : SchedState) : SchedEvent → Option SchedState
  | .arrive t text =>
    if t < st.now then none
    else some (arriveCore env st t text)
  | .flushBegin t =>
    if t < st.now then none
    else
      match st.pending with
      | none => none
      | some b =>
        if t < b.fireAt then none
        else some { st with
          now := t
          pending := none
          inflight := st.inflight ++ [⟨b.messages, b.cooldownTarget⟩] }
  | .flushEnd t =>
    if t < st.now then none
    else
      match st.inflight with
      | [] => none
      | ctx :: rest => some (flushEndCore env { st with now := t, inflight := rest } t ctx)

/-- Run a sequence of events. -/
def schedRun (env : SchedulerEnv) (st : SchedState) : List SchedEvent → Option SchedState
  | [] => some st
  | e :: es =>
    match schedStep env st e with
    | none => none
    | some st1 => schedRun env st1 es

/-- Initial scheduler state: both in-memory maps empty, nothing in flight. -/
def initState (record : Option Record) : SchedState :=
  { now := 0
    record := record
    pending := none
    inflight := []
    lastReplyAt := none
    sends := []
    cycles := [] }

/-! ### Facts about `jsTrim` and `jsJoin` -/

/-- Dropping a leading `p`-run is a no-op when the head fails `p`. -/
theorem dropWhile_eq_self_of_head {α : Type} (p : α → Bool) (l : List α)
    (h : ∀ c, l.head? = some c → p c = false) : l.dropWhile p = l := by
  cases l with
  | nil => rfl
  | cons a t => simp [List.dropWhile_cons, h a rfl]

/-- Dropping a leading `p`-run is strict when the head satisfies `p`. -/
theorem length_dropWhile_lt_of_head {α : Type} (p : α → Bool) (l : List α) (c : α)
    (hc : l.head? = some c) (hp : p c = true) :
    (l.dropWhile p).length < l.length := by
  cases l with
  | nil => simp at hc
  | cons a t =>
    obtain rfl : a = c := by simpa using hc
    simp only [List.dropWhile_cons, hp, if_true]
    exact Nat.lt_succ_of_le (List.dropWhile_suffix p).length_le

/-- `trimChars` never lengthens a list. -/
theorem trimChars_length_le (l : List Char) : (trimChars l).length ≤ l.length := by
  unfold trimChars
  calc ((l.dropWhile isJsWs).reverse.dropWhile isJsWs).reverse.length
      = ((l.dropWhile isJsWs).reverse.dropWhile isJsWs).length := List.length_reverse _
    _ ≤ (l.dropWhile isJsWs).reverse.length := (List.dropWhile_suffix _).length_le
    _ = (l.dropWhile isJsWs).length := List.length_reverse _
    _ ≤ l.length := (List.dropWhile_suffix _).length_le

/-- `trimChars` is a no-op on lists with non-whitespace ends. -/
theorem trimChars_eq_self (l : List Char)
    (hh : ∀ c, l.head? = some c → isJsWs c = false)
    (hl : ∀ c, l.getLast? = some c → isJsWs c = false) :
    trimChars l = l := by
  unfold trimChars
  rw [dropWhile_eq_self_of_head _ _ hh]
  rw [dropWhile_eq_self_of_head _ _ (by
    intro c hc
    rw [List.head?_reverse] at hc
    exact hl c hc)]
  exact List.reverse_reverse l

/-- A list fixed by `trimChars` has a non-whitespace head. -/
theorem head_not_ws_of_trimChars_eq (l : List Char) (h : trimChars l = l) :
    ∀ c, l.head? = some c → isJsWs c = false := by
  intro c hc
  by_contra hws
  have hws' : isJsWs c = true := by simpa using hws
  have h1 : ((l.dropWhile isJsWs).reverse.dropWhile isJsWs).reverse.length ≤
      (l.dropWhile isJsWs).length := by
    calc ((l.dropWhile isJsWs).reverse.dropWhile isJsWs).reverse.length
        = ((l.dropWhile isJsWs).reverse.dropWhile isJsWs).length := List.length_reverse _
      _ ≤ (l.dropWhile isJsWs).reverse.length := (List.dropWhile_suffix _).length_le
      _ = (l.dropWhile isJsWs).length := List.length_reverse _
  have h2 : (l.dropWhile isJsWs).length < l.length :=
    length_dropWhile_lt_of_head _ _ _ hc hws'
  have h3 : (trimChars l).length < l.length := lt_of_le_of_lt h1 h2
  rw [h] at h3
  exact lt_irrefl _ h3

/-- A nonempty suffix shares its last element with the whole list. -/
theorem getLast?_of_suffix {α : Type} {s l : List α} (hs : s <:+ l) (hne : s ≠ []) :
    l.getLast? = s.getLast? := by
  obtain ⟨pre, rfl⟩ := hs
  rw [List.getLast?_append]
  cases hx : s.getLast? with
  | none => exact absurd (List.getLast?_eq_none_iff.mp hx) hne
  | some c => rfl

/-- A list fixed by `trimChars` has a non-whitespace last element. -/
theorem getLast_not_ws_of_trimChars_eq (l : List Char) (h : trimChars l = l) :
    ∀ c, l.getLast? = some c → isJsWs c = false := by
  intro c hc
  by_contra hws
  have hws' : isJsWs c = true := by simpa using hws
  set d := l.dropWhile isJsWs with hd
  have hdne : d ≠ [] := by
    intro hnil
    have : trimChars l = [] := by simp [trimChars, ← hd, hnil]
    rw [h] at this
    simp [this] at hc
  have hlast : d.getLast? = some c := by
    rw [← getLast?_of_suffix (List.dropWhile_suffix _) hdne]
    exact hc
  have hhead : d.reverse.head? = some c := by rw [List.head?_reverse]; exact hlast
  have h2 : (d.reverse.dropWhile isJsWs).length < d.reverse.length :=
    length_dropWhile_lt_of_head _ _ _ hhead hws'
  have h3 : (trimChars l).length < l.length := by
    have : (trimChars l).length = (d.reverse.dropWhile isJsWs).length := by
      simp [trimChars, ← hd]
    rw [this]
    calc (d.reverse.dropWhile isJsWs).length < d.reverse.length := h2
      _ = d.length := List.length_reverse _
      _ ≤ l.length := (List.dropWhile_suffix _).length_le
  rw [h] at h3
  exact lt_irrefl _ h3

/-- A nonempty string fixed by `jsTrim` has non-whitespace first and last
characters. -/
theorem jsTrim_eq_self_ends (m : String) (h : jsTrim m = m) :
    (∀ c, m.data.head? = some c → isJsWs c = false) ∧
      (∀ c, m.data.getLast? = some c → isJsWs c = false) := by
  have hdata : trimChars m.data = m.data := congrArg String.data h
  exact ⟨head_not_ws_of_trimChars_eq _ hdata, getLast_not_ws_of_trimChars_eq _ hdata⟩

/-- Nonempty strings have nonempty character data. -/
theorem data_ne_nil_of_ne_empty (m : String) (h : m ≠ "") : m.data ≠ [] := by
  intro hn
  exact h (String.ext hn)

/-- The joined string starts with the first fragment's characters. -/
theorem jsJoin_data_head? (sep : String) (m : String) (ms : List String) (hm : m ≠ "") :
    (jsJoin sep (m :: ms)).data.head? = m.data.head? := by
  cases ms with
  | nil => rfl
  | cons m2 rest =>
    show ((m ++ sep) ++ jsJoin sep (m2 :: rest)).data.head? = _
    have hdata : ((m ++ sep) ++ jsJoin sep (m2 :: rest)).data =
        m.data ++ (sep.data ++ (jsJoin sep (m2 :: rest)).data) := by
      simp [List.append_assoc]
    rw [hdata, List.head?_append]
    cases hx : m.data.head? with
    | none => exact absurd (List.head?_eq_none_iff.mp hx) (data_ne_nil_of_ne_empty m hm)
    | some c => rfl

/-- The joined string ends with the last fragment's characters. -/
theorem jsJoin_data_getLast? (sep : String) (msgs : List String)
    (h : ∀ m ∈ msgs, m ≠ "") (hne : msgs ≠ []) :
    (jsJoin sep msgs).data.getLast? = (msgs.getLast hne).data.getLast? := by
  induction msgs with
  | nil => exact absurd rfl hne
  | cons m ms ih =>
    cases ms with
    | nil => rfl
    | cons m2 rest =>
      have hms : ∀ x ∈ m2 :: rest, x ≠ "" := fun x hx => h x (List.mem_cons_of_mem m hx)
      have ihne : (m2 :: rest : List String) ≠ [] := by simp
      have ihx := ih hms ihne
      show ((m ++ sep) ++ jsJoin sep (m2 :: rest)).data.getLast? = _
      have hdata : ((m ++ sep) ++ jsJoin sep (m2 :: rest)).data =
          (m.data ++ sep.data) ++ (jsJoin sep (m2 :: rest)).data := by simp
      rw [hdata, List.getLast?_append, ihx]
      have hlastne : ((m2 :: rest : List String).getLast ihne).data ≠ [] :=
        data_ne_nil_of_ne_empty _ (hms _ (List.getLast_mem ihne))
      cases hx : ((m2 :: rest : List String).getLast ihne).data.getLast? with
      | none => exact absurd (List.getLast?_eq_none_iff.mp hx) hlastne
      | some c =>
        have : ((m :: m2 :: rest : List String).getLast (by simp)) =
            ((m2 :: rest : List String).getLast ihne) := rfl
        simp [this, hx]

/-- C5/C10 workhorse: joining fragments that are nonempty and already trimmed
yields a string that `jsTrim` leaves unchanged (the source trims the joined
string once more; on route-trimmed fragments that is a no-op). -/
theorem jsTrim_jsJoin (sep : String) (msgs : List String)
    (h : ∀ m ∈ msgs, jsTrim m = m ∧ m ≠ "") :
    jsTrim (jsJoin sep msgs) = jsJoin sep msgs := by
  cases msgs with
  | nil => rfl
  | cons m ms =>
    apply String.ext
    show trimChars (jsJoin sep (m :: ms)).data = (jsJoin sep (m :: ms)).data
    apply trimChars_eq_self
    · intro c hc
      rw [jsJoin_data_head? sep m ms (h m (by simp)).2] at hc
      exact (jsTrim_eq_self_ends m (h m (by simp)).1).1 c hc
    · intro c hc
      have hne : (m :: ms : List String) ≠ [] := by simp
      rw [jsJoin_data_getLast? sep (m :: ms) (fun x hx => (h x hx).2) hne] at hc
      have hmem := List.getLast_mem hne
      exact (jsTrim_eq_self_ends _ (h _ hmem).1).2 c hc

/-- Appending a final fragment to a nonempty join. -/
theorem jsJoin_append_singleton (sep : String) (ms : List String) (m : String)
    (hne : ms ≠ []) :
    jsJoin sep (ms ++ [m]) = jsJoin sep ms ++ sep ++ m := by
  induction ms with
  | nil => exact absurd rfl hne
  | cons x rest ih =>
    cases rest with
    | nil => rfl
    | cons y rest2 =>
      have := ih (by simp)
      show jsJoin sep (x :: ((y :: rest2) ++ [m])) = _
      calc jsJoin sep (x :: ((y :: rest2) ++ [m]))
          = x ++ sep ++ jsJoin sep ((y :: rest2) ++ [m]) := by
            cases rest2 <;> rfl
        _ = x ++ sep ++ (jsJoin sep (y :: rest2) ++ sep ++ m) := by rw [this]
        _ = (x ++ sep ++ jsJoin sep (y :: rest2)) ++ sep ++ m := by
            apply String.ext
            simp [List.append_assoc]

/-- The last fragment's characters form a suffix of the join. -/
theorem jsJoin_suffix_last (sep : String) (ms : List String) (m : String) :
    m.data <:+ (jsJoin sep (ms ++ [m])).data := by
  cases hms : ms with
  | nil => simp [jsJoin]
  | cons x rest =>
    rw [← hms, jsJoin_append_singleton sep ms m (by simp [hms])]
    have : (jsJoin sep ms ++ sep ++ m).data =
        ((jsJoin sep ms).data ++ sep.data) ++ m.data := by simp
    rw [this]
    exact List.suffix_append _ _

/-! ### C4: what the cooldown mechanism actually guarantees -/

/-- The effective intake delay is never zero (the `||` fallback sees to it). -/
theorem effectiveDelayMs_ne_zero (db : SettingsDb) : effectiveDelayMs db ≠ 0 := by
  unfold effectiveDelayMs jsOrN
  split
  · decide
  · assumption

/-- The computed delay is zero exactly on the bypass condition. -/
theorem computeDelayMs_eq_zero_iff (db : SettingsDb) (lastReplyAt : Option Nat) (now : Nat)
    (severity text : String) :
    computeDelayMs db lastReplyAt now severity text = 0 ↔
      (severity == "high" || severity == "critical" || containsCriticalKeyword text) = true := by
  constructor
  · intro h
    by_contra hc
    have hc' : (severity == "high" || severity == "critical" ||
        containsCriticalKeyword text) = false := by
      cases hx : (severity == "high" || severity == "critical" ||
        containsCriticalKeyword text) with
      | false => rfl
      | true => exact absurd hx hc
    rw [computeDelayMs_formula db lastReplyAt now severity text hc'] at h
    have h1 : now + effectiveDelayMs db ≤
        max (now + effectiveDelayMs db) (lastReplyAt.getD 0 + effectiveCooldownMs db) :=
      le_max_left _ _
    have h2 := effectiveDelayMs_ne_zero db
    omega
  · intro h
    simp [computeDelayMs, h]

/-- A nonzero computed delay pushes the timer expiry to or past the cooldown
target `last + cooldownMs` that `computeDelayMs` derived. -/
theorem fireAt_ge_cooldownTarget (env : SchedulerEnv) (lastReplyAt : Option Nat)
    (t : Nat) (text : String) (h : arriveDelay env lastReplyAt t text ≠ 0) :
    lastReplyAt.getD 0 + effectiveCooldownMs env.settings ≤
      t + arriveDelay env lastReplyAt t text := by
  have hc : (arriveSeverity env text == "high" || arriveSeverity env text == "critical" ||
      containsCriticalKeyword text) = false := by
    cases hx : (arriveSeverity env text == "high" || arriveSeverity env text == "critical" ||
      containsCriticalKeyword text) with
    | false => rfl
    | true => exact absurd ((computeDelayMs_eq_zero_iff _ _ _ _ _).mpr hx) h
  rw [arriveDelay, computeDelayMs_formula _ _ _ _ _ hc]
  have h1 : t + effectiveDelayMs env.settings ≤
      max (t + effectiveDelayMs env.settings)
        (lastReplyAt.getD 0 + effectiveCooldownMs env.settings) := le_max_left _ _
  have h2 : lastReplyAt.getD 0 + effectiveCooldownMs env.settings ≤
      max (t + effectiveDelayMs env.settings)
        (lastReplyAt.getD 0 + effectiveCooldownMs env.settings) := le_max_right _ _
  omega

/-- Scheduler invariant: a pending bucket never fires before its cooldown
target, in-flight snapshots have already reached their target, and every
recorded send happened at or after its recorded target. -/
def schedInv (st : SchedState) : Prop :=
  (∀ b, st.pending = some b → b.cooldownTarget ≤ b.fireAt) ∧
  (∀ ctx ∈ st.inflight, ctx.cooldownTarget ≤ st.now) ∧
  (∀ s ∈ st.sends, s.cooldownTarget ≤ s.sentAt)

/-- Each scheduler step preserves the invariant. -/
theorem schedStep_inv (env : SchedulerEnv) (st : SchedState) (e : SchedEvent)
    (st' : SchedState) (hInv : schedInv st) (h : schedStep env st e = some st') :
    schedInv st' := by
  obtain ⟨hP, hI, hS⟩ := hInv
  cases e with
  | arrive t text =>
    simp only [schedStep] at h
    by_cases ht : t < st.now
    · simp [ht] at h
    · rw [if_neg ht] at h
      have ht' : st.now ≤ t := Nat.le_of_not_lt ht
      obtain rfl : arriveCore env st t text = st' := Option.some_injective _ h
      by_cases hd : (arriveDelay env st.lastReplyAt t text == 0) = true
      · simp only [arriveCore, hd, if_true]
        refine ⟨hP, fun ctx hc => le_trans (hI ctx hc) ht', fun s hs => ?_⟩
        simp only [List.mem_append] at hs
        rcases hs with (hs | hs) | hs
        · exact hS s hs
        · split at hs
          · simp only [List.mem_singleton] at hs
            subst hs
            exact Nat.zero_le _
          · simp at hs
        · obtain ⟨n, _, rfl⟩ := List.mem_map.mp hs
          exact Nat.zero_le _
      · have hd' : (arriveDelay env st.lastReplyAt t text == 0) = false := by
          cases hx : (arriveDelay env st.lastReplyAt t text == 0) with
          | false => rfl
          | true => exact absurd hx hd
        simp only [arriveCore, hd', Bool.false_eq_true, if_false]
        refine ⟨fun b hb => ?_, fun ctx hc => le_trans (hI ctx hc) ht', hS⟩
        obtain rfl : _ = b := Option.some_injective _ hb
        exact fireAt_ge_cooldownTarget env st.lastReplyAt t text
          (by simpa using hd')
  | flushBegin t =>
    simp only [schedStep] at h
    by_cases ht : t < st.now
    · simp [ht] at h
    · rw [if_neg ht] at h
      have ht' : st.now ≤ t := Nat.le_of_not_lt ht
      match hp : st.pending with
      | none => simp [hp] at h
      | some b =>
        simp only [hp] at h
        by_cases hf : t < b.fireAt
        · simp [hf] at h
        · rw [if_neg hf] at h
          obtain rfl := Option.some_injective _ h
          refine ⟨by simp, fun ctx hc => ?_, hS⟩
          simp only [List.mem_append, List.mem_singleton] at hc
          rcases hc with hc | rfl
          · exact le_trans (hI ctx hc) ht'
          · exact le_trans (hP b hp) (Nat.le_of_not_lt hf)
  | flushEnd t =>
    simp only [schedStep] at h
    by_cases ht : t < st.now
    · simp [ht] at h
    · rw [if_neg ht] at h
      have ht' : st.now ≤ t := Nat.le_of_not_lt ht
      match hifl : st.inflight with
      | [] => rw [hifl] at h; exact absurd h (by simp)
      | ctx :: rest =>
        rw [hifl] at h
        obtain rfl := Option.some_injective _ h
        have hIrest : ∀ c ∈ rest, c.cooldownTarget ≤ t := fun c hc =>
          le_trans (hI c (by rw [hifl]; exact List.mem_cons_of_mem _ hc)) ht'
        have hctx : ctx.cooldownTarget ≤ t :=
          le_trans (hI ctx (by rw [hifl]; exact List.mem_cons_self _ _)) ht'
        by_cases hT : env.tenantExists
        · simp only [flushEndCore, hT, Bool.not_true, Bool.false_eq_true, if_false]
          refine ⟨hP, hIrest, fun s hs => ?_⟩
          simp only [List.mem_append] at hs
          rcases hs with (hs | hs) | hs
          · exact hS s hs
          · split at hs
            · simp only [List.mem_singleton] at hs
              subst hs
              exact hctx
            · simp at hs
          · obtain ⟨n, _, rfl⟩ := List.mem_map.mp hs
            exact Nat.zero_le _
        · have hT' : env.tenantExists = false := by
            cases hx : env.tenantExists with
            | false => rfl
            | true => exact absurd hx hT
          simp only [flushEndCore, hT', Bool.not_false, if_true]
          exact ⟨hP, hIrest, hS⟩

/-- The invariant holds along any run. -/
theorem schedRun_inv (env : SchedulerEnv) (st : SchedState) (evs : List SchedEvent)
    (st' : SchedState) (hInv : schedInv st) (h : schedRun env st evs = some st') :
    schedInv st' := by
  induction evs generalizing st with
  | nil => obtain rfl := Option.some_injective _ h; exact hInv
  | cons e rest ih =>
    simp only [schedRun] at h
    match hstep : schedStep env st e with
    | none => rw [hstep] at h; exact absurd h (by simp)
    | some st1 =>
      rw [hstep] at h
      exact ih st1 (schedStep_inv env st e st1 hInv hstep) h

/-- C4 (amended): along any event sequence from the initial state, every
batched (debounced, non-bypass) auto-reply is sent at or after the cooldown
target `T + C` that `computeDelayMs` computed when the flushed bucket's
latest message was queued, where `T` is the recorded last-auto-reply time at
that moment and `C` the effective cooldown.  (The original claim, with `T`
the latest recorded time at send, fails: the recorded time can advance —
e.g. by a bypass reply — between queueing and flush.) -/
theorem schedRun_batched_respects_queue_cooldown (env : SchedulerEnv)
    (record : Option Record) (evs : List SchedEvent) (st' : SchedState)
    (h : schedRun env (initState record) evs = some st') :
    ∀ s ∈ st'.sends, s.kind = SendKind.batchedDraft → s.cooldownTarget ≤ s.sentAt := by
  have hInv0 : schedInv (initState record) := by
    refine ⟨fun b hb => ?_, fun ctx hc => ?_, fun s hs => ?_⟩
    · simp [initState] at hb
    · simp [initState] at hc
    · simp [initState] at hs
  have hInv := schedRun_inv env (initState record) evs st' hInv0 h
  exact fun s hs _ => hInv.2.2 s hs

/-- Concrete scheduler environment used by closed theorems: default settings
(no database), classifier always "normal", a fixed nonempty draft, global
auto-reply on, tenant resolvable, no landlord broadcast numbers. -/
def envA : SchedulerEnv :=
  { settings := ⟨false, none, none⟩
    severityOf := fun _ => "normal"
    draftOf := fun _ => "Acknowledged."
    canAutoReply := true
    tenantExists := true
    landlordNumbers := []
    tenantName := "T"
    tenantPhone := "155"
    replyTo := "155" }

/-- Final state of the concrete run used as witness for C4's theorem: one
delayed message, then its flush at the cooldown-determined expiry. -/
def c4WitnessState : SchedState :=
  { now := 3600000
    record := some
      { chatLog := [⟨ChatRole.tenant, "hi"⟩, ⟨ChatRole.tenant, "hi"⟩,
          ⟨ChatRole.ai, "Acknowledged."⟩]
        autopilotLog := []
        autopilotEnabled := true
        autopilotStatus := "idle"
        triageSeverity := some "normal"
        aiDraftText := some "Acknowledged."
        landlordReply := "" }
    pending := none
    inflight := []
    lastReplyAt := some 3600000
    sends := [⟨3600000, SendKind.batchedDraft, "155", "Acknowledged.", 3600000⟩]
    cycles := ["hi"] }

/-- Witness for C4's theorem: the concrete run delivers its batched reply at
time 3600000, at its cooldown target. -/
theorem schedRun_batched_respects_queue_cooldown_witness :
    (⟨3600000, SendKind.batchedDraft, "155", "Acknowledged.", 3600000⟩ : Send).cooldownTarget ≤
      (⟨3600000, SendKind.batchedDraft, "155", "Acknowledged.", 3600000⟩ : Send).sentAt :=
  schedRun_batched_respects_queue_cooldown envA none
    [.arrive 0 "hi", .flushBegin 3600000, .flushEnd 3600000] c4WitnessState (by decide)
    ⟨3600000, SendKind.batchedDraft, "155", "Acknowledged.", 3600000⟩ (by decide) rfl

/-- Counterexample for C4 as stated: a non-bypass message is queued at time 1
(flush scheduled for time 3600000, the cooldown target of the then-current
recorded state), a bypass ("fire") message at time 2 triggers an immediate
auto-reply which records last-auto-reply time T = 2, and the flush then
sends its non-bypass auto-reply at time 3600000 < T + cooldown = 3600002. -/
theorem cooldown_bypass_interleaving_counterexample :
    ((schedRun envA (initState none)
        [.arrive 1 "small drip under sink", .arrive 2 "there is a fire"]).map
          SchedState.lastReplyAt = some (some 2)) ∧
      ((schedRun envA (initState none)
        [.arrive 1 "small drip under sink", .arrive 2 "there is a fire",
          .flushBegin 3600000, .flushEnd 3600000]).map SchedState.sends =
        some [⟨2, SendKind.immediateDraft, "155", "Acknowledged.", 0⟩,
          ⟨3600000, SendKind.batchedDraft, "155", "Acknowledged.", 3600000⟩]) ∧
      3600000 < 2 + effectiveCooldownMs envA.settings := by
  refine ⟨by decide, by decide, by decide⟩

/-! ### C5: batch coalescing -/

/-- Buffered fragment list of the pending bucket (empty when no bucket). -/
def pendingMsgs (st : SchedState) : List String :=
  (st.pending.map Bucket.messages).getD []

/-- Arrival events for a list of (time, text) pairs. -/
def arriveEvents (l : List (Nat × String)) : List SchedEvent :=
  l.map fun p => .arrive p.1 p.2

/-- Running an appended event list is running the pieces in order. -/
theorem schedRun_append (env : SchedulerEnv) (st : SchedState)
    (l1 l2 : List SchedEvent) :
    schedRun env st (l1 ++ l2) =
      (schedRun env st l1).bind fun st1 => schedRun env st1 l2 := by
  induction l1 generalizing st with
  | nil => rfl
  | cons e rest ih =>
    simp only [List.cons_append, schedRun]
    match schedStep env st e with
    | none => rfl
    | some st1 => exact ih st1

/-- A non-bypass arrival at a valid time appends the fragment to the bucket
and reschedules the timer to the newly computed delay. -/
theorem schedStep_arrive_delayed (env : SchedulerEnv) (st : SchedState) (t : Nat)
    (m : String) (ht : st.now ≤ t) (hNB : bypassCondOf env m = false) :
    schedStep env st (.arrive t m) = some
      { st with
        now := t
        record := some (updateMaintenanceAnalysis
          (match st.record with
            | some r => appendChatMessage r ChatRole.tenant m none
            | none => createMaintenanceRequest m (env.severityOf m) none true)
          (some (env.severityOf m)) none)
        pending := some
          { messages := pendingMsgs st ++ [m]
            fireAt := t + arriveDelay env st.lastReplyAt t m
            cooldownTarget := st.lastReplyAt.getD 0 + effectiveCooldownMs env.settings } } := by
  have hdz : arriveDelay env st.lastReplyAt t m ≠ 0 := by
    intro h0
    have := (computeDelayMs_eq_zero_iff env.settings st.lastReplyAt t
      (arriveSeverity env m) m).mp h0
    rw [bypassCondOf] at hNB
    rw [this] at hNB
    exact Bool.true_eq_false.mp hNB
  have hbeq : (arriveDelay env st.lastReplyAt t m == 0) = false := by
    cases hx : (arriveDelay env st.lastReplyAt t m == 0) with
    | false => rfl
    | true => exact absurd (by simpa using hx : arriveDelay env st.lastReplyAt t m = 0) hdz
  simp only [schedStep, Nat.not_lt.mpr ht, if_false, arriveCore, hbeq,
    Bool.false_eq_true, if_false, pendingMsgs]

/-- Running a sequence of non-bypass arrivals (at non-decreasing times)
appends all fragments to the bucket in arrival order and leaves the reply
history, send log, cycle log and in-flight list untouched; afterwards the
bucket's timer reflects the delay computed for the final arrival. -/
theorem arrivals_accumulate (env : SchedulerEnv) (l : List (Nat × String))
    (st : SchedState)
    (hT : List.Chain' (· ≤ ·) (st.now :: l.map Prod.fst))
    (hNB : ∀ p ∈ l, bypassCondOf env p.2 = false) :
    ∃ st', schedRun env st (arriveEvents l) = some st' ∧
      st'.lastReplyAt = st.lastReplyAt ∧
      st'.sends = st.sends ∧
      st'.cycles = st.cycles ∧
      st'.inflight = st.inflight ∧
      st'.now = l.foldl (fun _ p => p.1) st.now ∧
      pendingMsgs st' = pendingMsgs st ++ l.map Prod.snd ∧
      (∀ q, l.getLast? = some q → st'.pending = some
        { messages := pendingMsgs st ++ l.map Prod.snd
          fireAt := q.1 + arriveDelay env st.lastReplyAt q.1 q.2
          cooldownTarget := st.lastReplyAt.getD 0 + effectiveCooldownMs env.settings }) ∧
      (l = [] → st' = st) := by
  induction l generalizing st with
  | nil =>
    exact ⟨st, rfl, rfl, rfl, rfl, rfl, rfl, by simp, fun q hq => by simp at hq, fun _ => rfl⟩
  | cons p rest ih =>
    have ht : st.now ≤ p.1 := by
      simpa using (List.chain'_cons.mp hT).1
    have hNBp : bypassCondOf env p.2 = false := hNB p (List.mem_cons_self _ _)
    have hstep := schedStep_arrive_delayed env st p.1 p.2 ht hNBp
    set st1 : SchedState :=
      { st with
        now := p.1
        record := some (updateMaintenanceAnalysis
          (match st.record with
            | some r => appendChatMessage r ChatRole.tenant p.2 none
            | none => createMaintenanceRequest p.2 (env.severityOf p.2) none true)
          (some (env.severityOf p.2)) none)
        pending := some
          { messages := pendingMsgs st ++ [p.2]
            fireAt := p.1 + arriveDelay env st.lastReplyAt p.1 p.2
            cooldownTarget := st.lastReplyAt.getD 0 + effectiveCooldownMs env.settings } }
      with hst1
    have hT1 : List.Chain' (· ≤ ·) (st1.now :: rest.map Prod.fst) := by
      have := (List.chain'_cons.mp hT).2
      simpa [hst1] using this
    have hNB1 : ∀ q ∈ rest, bypassCondOf env q.2 = false := fun q hq =>
      hNB q (List.mem_cons_of_mem _ hq)
    obtain ⟨st', hrun, hLast, hSends, hCycles, hIfl, hNow, hMsgs, hBucket, hNil⟩ :=
      ih st1 hT1 hNB1
    refine ⟨st', ?_, ?_, ?_, ?_, ?_, ?_, ?_, ?_, ?_⟩
    · simp only [arriveEvents, List.map_cons, schedRun, hstep]
      exact hrun
    · simpa [hst1] using hLast
    · simpa [hst1] using hSends
    · simpa [hst1] using hCycles
    · simpa [hst1] using hIfl
    · rw [hNow]
      simp [hst1]
    · rw [hMsgs]
      simp [hst1, pendingMsgs]
    · intro q hq
      cases rest with
      | nil =>
        have hqp : p = q := by simpa using hq
        subst hqp
        rw [hNil rfl]
        simp [hst1, pendingMsgs]
      | cons r rs =>
        have hq2 : (r :: rs).getLast? = some q := by
          rw [← List.getLast?_cons_cons]
          exact hq
        have hb := hBucket q hq2
        rw [hb]
        have hpm : pendingMsgs st1 = pendingMsgs st ++ [p.2] := by
          simp [hst1, pendingMsgs]
        have hlr : st1.lastReplyAt = st.lastReplyAt := by simp [hst1]
        rw [hpm, hlr]
        simp
    · intro hcons
      exact absurd hcons (by simp)

/-- A timer fire at a valid time snapshots and deletes the bucket. -/
theorem schedStep_flushBegin (env : SchedulerEnv) (st : SchedState) (t : Nat) (b : Bucket)
    (hp : st.pending = some b) (ht : st.now ≤ t) (hf : b.fireAt ≤ t) :
    schedStep env st (.flushBegin t) = some
      { st with
        now := t
        pending := none
        inflight := st.inflight ++ [⟨b.messages, b.cooldownTarget⟩] } := by
  simp [schedStep, hp, Nat.not_lt.mpr ht, Nat.not_lt.mpr hf]

/-- Completing the oldest in-flight flush runs its asynchronous tail. -/
theorem schedStep_flushEnd (env : SchedulerEnv) (st : SchedState) (t : Nat)
    (ctx : FlushCtx) (rest : List FlushCtx)
    (hi : st.inflight = ctx :: rest) (ht : st.now ≤ t) :
    schedStep env st (.flushEnd t) = some
      (flushEndCore env { st with now := t, inflight := rest } t ctx) := by
  simp [schedStep, hi, Nat.not_lt.mpr ht]

/-- Landlord-alert sends are never batched-draft sends. -/
theorem filter_batched_alerts (t : Nat) (txt : String) (ns : List String) :
    (ns.map fun n => (⟨t, SendKind.landlordAlert, n, txt, 0⟩ : Send)).filter
      (fun s => s.kind == SendKind.batchedDraft) = [] := by
  rw [List.filter_eq_nil_iff]
  intro s hs
  obtain ⟨n, _, rfl⟩ := List.mem_map.mp hs
  show ¬(SendKind.landlordAlert == SendKind.batchedDraft) = true
  decide

/-- Observable effects of a successful flush tail: one combined cycle is
recorded, the pending bucket and in-flight list are untouched, and the
batched-send log gains exactly the conditional combined-draft send (the
landlord alerts are not batched-draft sends). -/
theorem flushEndCore_obs (env : SchedulerEnv) (st : SchedState) (t : Nat) (ctx : FlushCtx)
    (hTen : env.tenantExists = true) :
    (flushEndCore env st t ctx).cycles =
        st.cycles ++ [jsTrim (jsJoin "\n---\n" ctx.messages)] ∧
      (flushEndCore env st t ctx).pending = st.pending ∧
      (flushEndCore env st t ctx).now = st.now ∧
      (flushEndCore env st t ctx).inflight = st.inflight ∧
      (flushEndCore env st t ctx).sends.filter (fun s => s.kind == SendKind.batchedDraft) =
        st.sends.filter (fun s => s.kind == SendKind.batchedDraft) ++
          (if (!(jsTrim (env.draftOf (jsTrim (jsJoin "\n---\n" ctx.messages))) == "") &&
              env.canAutoReply) = true then
            [⟨t, SendKind.batchedDraft, env.replyTo,
              jsTrim (env.draftOf (jsTrim (jsJoin "\n---\n" ctx.messages))),
              ctx.cooldownTarget⟩]
          else []) := by
  refine ⟨?_, ?_, ?_, ?_, ?_⟩
  · cases hrec : st.record <;>
      simp [flushEndCore, hTen, hrec]
  · cases hrec : st.record <;>
      simp [flushEndCore, hTen, hrec]
  · cases hrec : st.record <;>
      simp [flushEndCore, hTen, hrec]
  · cases hrec : st.record <;>
      simp [flushEndCore, hTen, hrec]
  · cases hrec : st.record <;>
    · simp only [flushEndCore, hTen, Bool.not_true, Bool.false_eq_true, if_false, hrec]
      rw [List.filter_append, List.filter_append, filter_batched_alerts, List.append_nil]
      congr 1
      split
      · simp
      · simp

/-- Folding the arrival times lands on the final arrival's time. -/
theorem foldl_fst_getLast (l : List (Nat × String)) (q : Nat × String)
    (hq : l.getLast? = some q) (a : Nat) :
    l.foldl (fun _ p => p.1) a = q.1 := by
  induction l generalizing a with
  | nil => simp at hq
  | cons p rest ih =>
    cases rest with
    | nil =>
      have : p = q := by simpa using hq
      subst this
      rfl
    | cons r rs =>
      rw [List.getLast?_cons_cons] at hq
      exact ih hq p.1

/-- C5: messages that all arrive (non-bypass, at non-decreasing times) while
the tenant's bucket stays open are flushed as exactly one combined
classify/draft/send cycle, whose combined text is the fragments joined with
the visible separator in arrival order; the batched-send log gains exactly
the one conditional send of the combined draft. -/
theorem batch_coalescing (env : SchedulerEnv) (st : SchedState)
    (l : List (Nat × String)) (q : Nat × String)
    (hpend : st.pending = none) (hifl : st.inflight = [])
    (hT : List.Chain' (· ≤ ·) (st.now :: l.map Prod.fst))
    (hNB : ∀ p ∈ l, bypassCondOf env p.2 = false)
    (hFrag : ∀ p ∈ l, jsTrim p.2 = p.2 ∧ p.2 ≠ "")
    (hq : l.getLast? = some q)
    (hTen : env.tenantExists = true) :
    ∃ stF, schedRun env st (arriveEvents l ++
        [.flushBegin (q.1 + arriveDelay env st.lastReplyAt q.1 q.2),
          .flushEnd (q.1 + arriveDelay env st.lastReplyAt q.1 q.2)]) = some stF ∧
      stF.cycles = st.cycles ++ [jsJoin "\n---\n" (l.map Prod.snd)] ∧
      stF.pending = none ∧
      stF.sends.filter (fun s => s.kind == SendKind.batchedDraft) =
        st.sends.filter (fun s => s.kind == SendKind.batchedDraft) ++
          (if (!(jsTrim (env.draftOf (jsJoin "\n---\n" (l.map Prod.snd))) == "") &&
              env.canAutoReply) = true then
            [⟨q.1 + arriveDelay env st.lastReplyAt q.1 q.2, SendKind.batchedDraft,
              env.replyTo, jsTrim (env.draftOf (jsJoin "\n---\n" (l.map Prod.snd))),
              st.lastReplyAt.getD 0 + effectiveCooldownMs env.settings⟩]
          else []) := by
  obtain ⟨st1, hrun, hLast, hSends, hCycles, hIfl, hNow, _, hBucket, _⟩ :=
    arrivals_accumulate env l st hT hNB
  have hpm0 : pendingMsgs st = [] := by simp [pendingMsgs, hpend]
  have hb := hBucket q hq
  rw [hpm0, List.nil_append] at hb
  have hnow1 : st1.now = q.1 := by rw [hNow]; exact foldl_fst_getLast l q hq st.now
  have ht1 : st1.now ≤ q.1 + arriveDelay env st.lastReplyAt q.1 q.2 := by
    rw [hnow1]; exact Nat.le_add_right _ _
  have hjoinTrim : jsTrim (jsJoin "\n---\n" (l.map Prod.snd)) =
      jsJoin "\n---\n" (l.map Prod.snd) := by
    apply jsTrim_jsJoin
    intro m hm
    obtain ⟨p, hp, rfl⟩ := List.mem_map.mp hm
    exact hFrag p hp
  have hstep1 := schedStep_flushBegin env st1 (q.1 + arriveDelay env st.lastReplyAt q.1 q.2)
    ⟨l.map Prod.snd, q.1 + arriveDelay env st.lastReplyAt q.1 q.2,
      st.lastReplyAt.getD 0 + effectiveCooldownMs env.settings⟩
    hb ht1 (le_refl _)
  have hstep2 := schedStep_flushEnd env
    { st1 with
      now := q.1 + arriveDelay env st.lastReplyAt q.1 q.2
      pending := none
      inflight := st1.inflight ++
        [⟨l.map Prod.snd, st.lastReplyAt.getD 0 + effectiveCooldownMs env.settings⟩] }
    (q.1 + arriveDelay env st.lastReplyAt q.1 q.2)
    ⟨l.map Prod.snd, st.lastReplyAt.getD 0 + effectiveCooldownMs env.settings⟩ []
    (by simp [hIfl, hifl]) (le_refl _)
  obtain ⟨hoC, hoP, _, _, hoS⟩ := flushEndCore_obs env
    { st1 with
      now := q.1 + arriveDelay env st.lastReplyAt q.1 q.2
      pending := none
      inflight := [] }
    (q.1 + arriveDelay env st.lastReplyAt q.1 q.2)
    ⟨l.map Prod.snd, st.lastReplyAt.getD 0 + effectiveCooldownMs env.settings⟩ hTen
  refine ⟨flushEndCore env
      { st1 with
        now := q.1 + arriveDelay env st.lastReplyAt q.1 q.2
        pending := none
        inflight := [] }
      (q.1 + arriveDelay env st.lastReplyAt q.1 q.2)
      ⟨l.map Prod.snd, st.lastReplyAt.getD 0 + effectiveCooldownMs env.settings⟩,
    ?_, ?_, ?_, ?_⟩
  · rw [schedRun_append, hrun]
    show schedRun env st1 _ = _
    simp only [schedRun, hstep1, hstep2]
  · rw [hoC, hjoinTrim]
    simp only []
    rw [hCycles]
  · rw [hoP]
  · rw [hoS, hjoinTrim]
    simp only []
    rw [hSends]

/-- Witness for C5 at a concrete input: two messages at times 1 and 2 are
coalesced into one cycle over "hello\n---\nworld". -/
theorem batch_coalescing_witness :
    ∃ stF, schedRun envA (initState none) (arriveEvents [(1, "hello"), (2, "world")] ++
        [.flushBegin (2 + arriveDelay envA (initState none).lastReplyAt 2 "world"),
          .flushEnd (2 + arriveDelay envA (initState none).lastReplyAt 2 "world")]) =
            some stF ∧
      stF.cycles = (initState none).cycles ++ [jsJoin "\n---\n" ["hello", "world"]] ∧
      stF.pending = none ∧
      stF.sends.filter (fun s => s.kind == SendKind.batchedDraft) =
        (initState none).sends.filter (fun s => s.kind == SendKind.batchedDraft) ++
          (if (!(jsTrim (envA.draftOf (jsJoin "\n---\n" ["hello", "world"])) == "") &&
              envA.canAutoReply) = true then
            [⟨2 + arriveDelay envA (initState none).lastReplyAt 2 "world",
              SendKind.batchedDraft, envA.replyTo,
              jsTrim (envA.draftOf (jsJoin "\n---\n" ["hello", "world"])),
              (initState none).lastReplyAt.getD 0 + effectiveCooldownMs envA.settings⟩]
          else []) :=
  batch_coalescing envA (initState none) [(1, "hello"), (2, "world")] (2, "world")
    rfl rfl
    (by
      refine List.chain'_cons.mpr ⟨by decide, ?_⟩
      refine List.chain'_cons.mpr ⟨by decide, ?_⟩
      exact List.chain'_singleton _)
    (by decide) (by decide) (by decide) rfl

/-- C9: when a pending bucket's timer fires, the bucket is removed from the
pending map synchronously, before any of the flush's asynchronous work runs;
a message from the same tenant arriving mid-flush therefore opens a fresh
bucket containing only the new fragment, and the in-flight flush still
processes exactly the snapshot taken at fire time. -/
theorem flush_deletes_bucket_before_work (env : SchedulerEnv) (st : SchedState)
    (b : Bucket) (t t' tE : Nat) (m : String)
    (hp : st.pending = some b) (hifl : st.inflight = [])
    (ht : st.now ≤ t) (hf : b.fireAt ≤ t) (ht' : t ≤ t')
    (hNB : bypassCondOf env m = false) (htE : t' ≤ tE)
    (hTen : env.tenantExists = true) :
    ∃ st1 st2 st3,
      schedStep env st (.flushBegin t) = some st1 ∧
      st1.pending = none ∧
      schedStep env st1 (.arrive t' m) = some st2 ∧
      st2.pending = some
        { messages := [m]
          fireAt := t' + arriveDelay env st.lastReplyAt t' m
          cooldownTarget := st.lastReplyAt.getD 0 + effectiveCooldownMs env.settings } ∧
      schedStep env st2 (.flushEnd tE) = some st3 ∧
      st3.cycles = st.cycles ++ [jsTrim (jsJoin "\n---\n" b.messages)] ∧
      st3.pending = st2.pending := by
  have hstep1 := schedStep_flushBegin env st t b hp ht hf
  set st1 : SchedState :=
    { st with
      now := t
      pending := none
      inflight := st.inflight ++ [⟨b.messages, b.cooldownTarget⟩] }
    with hst1
  have h1p : st1.pending = none := rfl
  have h1now : st1.now ≤ t' := ht'
  have hstep2 := schedStep_arrive_delayed env st1 t' m h1now hNB
  set st2 : SchedState :=
    { st1 with
      now := t'
      record := some (updateMaintenanceAnalysis
        (match st1.record with
          | some r => appendChatMessage r ChatRole.tenant m none
          | none => createMaintenanceRequest m (env.severityOf m) none true)
        (some (env.severityOf m)) none)
      pending := some
        { messages := pendingMsgs st1 ++ [m]
          fireAt := t' + arriveDelay env st1.lastReplyAt t' m
          cooldownTarget := st1.lastReplyAt.getD 0 + effectiveCooldownMs env.settings } }
    with hst2
  have h2p : st2.pending = some
      { messages := [m]
        fireAt := t' + arriveDelay env st.lastReplyAt t' m
        cooldownTarget := st.lastReplyAt.getD 0 + effectiveCooldownMs env.settings } := by
    simp [hst2, hst1, pendingMsgs]
  have h2i : st2.inflight = ⟨b.messages, b.cooldownTarget⟩ :: [] := by
    simp [hst2, hst1, hifl]
  have h2now : st2.now ≤ tE := htE
  have hstep3 := schedStep_flushEnd env st2 tE ⟨b.messages, b.cooldownTarget⟩ [] h2i h2now
  obtain ⟨hoC, hoP, _, _, _⟩ := flushEndCore_obs env
    { st2 with now := tE, inflight := [] } tE ⟨b.messages, b.cooldownTarget⟩ hTen
  refine ⟨st1, st2, _, hstep1, h1p, hstep2, h2p, hstep3, ?_, ?_⟩
  · rw [hoC]
  · rw [hoP]

/-- Witness for C9 at a concrete input. -/
theorem flush_deletes_bucket_before_work_witness :
    ∃ st1 st2 st3,
      schedStep envA ⟨1, none, some ⟨["leak"], 3600000, 3600000⟩, [], none, [], []⟩
          (.flushBegin 3600000) = some st1 ∧
      st1.pending = none ∧
      schedStep envA st1 (.arrive 3600001 "another drip") = some st2 ∧
      st2.pending = some
        { messages := ["another drip"]
          fireAt := 3600001 + arriveDelay envA none 3600001 "another drip"
          cooldownTarget := (none : Option Nat).getD 0 + effectiveCooldownMs envA.settings } ∧
      schedStep envA st2 (.flushEnd 3600002) = some st3 ∧
      st3.cycles = [] ++ [jsTrim (jsJoin "\n---\n" ["leak"])] ∧
      st3.pending = st2.pending :=
  flush_deletes_bucket_before_work envA
    ⟨1, none, some ⟨["leak"], 3600000, 3600000⟩, [], none, [], []⟩
    ⟨["leak"], 3600000, 3600000⟩ 3600000 3600001 3600002 "another drip"
    rfl rfl (by decide) (by decide) (by decide) (by decide) (by decide) rfl

/-- A nonempty-content singleton survives normalization. -/
theorem normalizeChatLog_singleton (role : ChatRole) (content : String)
    (h : ¬content = "") :
    normalizeChatLog [⟨role, content⟩] = [⟨role, content⟩] := by
  simp [normalizeChatLog, h]

/-- Chat-log effect of a successful flush tail on an existing conversation:
analysis update (no chat change), one combined tenant-role entry appended to
the normalized stored log, and a conditional ai-role entry for the auto-sent
draft. -/
theorem flushEndCore_chatLog (env : SchedulerEnv) (st : SchedState) (t : Nat)
    (ctx : FlushCtx) (r : Record) (hTen : env.tenantExists = true)
    (hrec : st.record = some r)
    (hcomb : ¬jsTrim (jsJoin "\n---\n" ctx.messages) = "") :
    ((flushEndCore env st t ctx).record.map Record.chatLog).getD [] =
      normalizeChatLog r.chatLog ++
        [⟨ChatRole.tenant, jsTrim (jsJoin "\n---\n" ctx.messages)⟩] ++
        (if (!(jsTrim (env.draftOf (jsTrim (jsJoin "\n---\n" ctx.messages))) == "") &&
            env.canAutoReply) = true then
          [⟨ChatRole.ai, jsTrim (env.draftOf (jsTrim (jsJoin "\n---\n" ctx.messages)))⟩]
        else []) := by
  simp only [flushEndCore, hTen, Bool.not_true, Bool.false_eq_true, if_false, hrec]
  split
  · show (appendChatMessage (appendChatMessage (updateMaintenanceAnalysis r _ _)
      ChatRole.tenant _ none) ChatRole.ai _ none).chatLog = _
    show normalizeChatLog ((appendChatMessage (updateMaintenanceAnalysis r _ _)
      ChatRole.tenant _ none).chatLog) ++ _ = _
    rw [appendChatMessage_normalized]
    show (normalizeChatLog (updateMaintenanceAnalysis r _ _).chatLog ++ _) ++ _ = _
    rw [normalizeChatLog_singleton _ _ hcomb]
    simp [updateMaintenanceAnalysis]
  · show (appendChatMessage (updateMaintenanceAnalysis r _ _)
      ChatRole.tenant _ none).chatLog = _
    show normalizeChatLog (updateMaintenanceAnalysis r _ _).chatLog ++ _ = _
    simp [updateMaintenanceAnalysis]

/-- C10: a delayed (non-bypass) tenant message on an existing conversation is
written to the chat log twice — once as a tenant-role entry at arrival, and
again at flush inside the combined tenant-role entry, of which the fragment
text is a contiguous substring. -/
theorem delayed_message_recorded_twice (env : SchedulerEnv) (st : SchedState)
    (r : Record) (t : Nat) (m : String)
    (hrec : st.record = some r) (hifl : st.inflight = [])
    (ht : st.now ≤ t) (hNB : bypassCondOf env m = false)
    (hFrag : ∀ x ∈ pendingMsgs st ++ [m], jsTrim x = x ∧ x ≠ "")
    (hTen : env.tenantExists = true) :
    ∃ stF, schedRun env st [.arrive t m,
        .flushBegin (t + arriveDelay env st.lastReplyAt t m),
        .flushEnd (t + arriveDelay env st.lastReplyAt t m)] = some stF ∧
      (stF.record.map Record.chatLog).getD [] =
        normalizeChatLog r.chatLog ++ [⟨ChatRole.tenant, m⟩] ++
          [⟨ChatRole.tenant, jsJoin "\n---\n" (pendingMsgs st ++ [m])⟩] ++
          (if (!(jsTrim (env.draftOf (jsJoin "\n---\n" (pendingMsgs st ++ [m]))) == "") &&
              env.canAutoReply) = true then
            [⟨ChatRole.ai, jsTrim (env.draftOf (jsJoin "\n---\n" (pendingMsgs st ++ [m])))⟩]
          else []) ∧
      m.data <:+: (jsJoin "\n---\n" (pendingMsgs st ++ [m])).data := by
  have hjoinTrim : jsTrim (jsJoin "\n---\n" (pendingMsgs st ++ [m])) =
      jsJoin "\n---\n" (pendingMsgs st ++ [m]) :=
    jsTrim_jsJoin _ _ hFrag
  have hmne : m ≠ "" := (hFrag m (by simp)).2
  have hcomb : ¬jsTrim (jsJoin "\n---\n" (pendingMsgs st ++ [m])) = "" := by
    rw [hjoinTrim]
    intro hj
    have hsuf := jsJoin_suffix_last "\n---\n" (pendingMsgs st) m
    rw [hj] at hsuf
    exact hmne (String.ext (List.suffix_nil.mp hsuf))
  have hstep1 := schedStep_arrive_delayed env st t m ht hNB
  rw [hrec] at hstep1
  set st1 : SchedState :=
    { st with
      now := t
      record := some (updateMaintenanceAnalysis
        (appendChatMessage r ChatRole.tenant m none)
        (some (env.severityOf m)) none)
      pending := some
        { messages := pendingMsgs st ++ [m]
          fireAt := t + arriveDelay env st.lastReplyAt t m
          cooldownTarget := st.lastReplyAt.getD 0 + effectiveCooldownMs env.settings } }
    with hst1
  have hstep2 := schedStep_flushBegin env st1 (t + arriveDelay env st.lastReplyAt t m)
    ⟨pendingMsgs st ++ [m], t + arriveDelay env st.lastReplyAt t m,
      st.lastReplyAt.getD 0 + effectiveCooldownMs env.settings⟩
    rfl (Nat.le_add_right _ _) (le_refl _)
  set st2 : SchedState :=
    { st1 with
      now := t + arriveDelay env st.lastReplyAt t m
      pending := none
      inflight := st1.inflight ++
        [⟨pendingMsgs st ++ [m], st.lastReplyAt.getD 0 + effectiveCooldownMs env.settings⟩] }
    with hst2
  have h2i : st2.inflight =
      ⟨pendingMsgs st ++ [m],
        st.lastReplyAt.getD 0 + effectiveCooldownMs env.settings⟩ :: [] := by
    simp [hst2, hst1, hifl]
  have hstep3 := schedStep_flushEnd env st2 (t + arriveDelay env st.lastReplyAt t m)
    ⟨pendingMsgs st ++ [m], st.lastReplyAt.getD 0 + effectiveCooldownMs env.settings⟩ []
    h2i (le_refl _)
  have hrec2 : ({ st2 with now := t + arriveDelay env st.lastReplyAt t m, inflight := ([] : List FlushCtx) } : SchedState).record = some
      (updateMaintenanceAnalysis (appendChatMessage r ChatRole.tenant m none)
        (some (env.severityOf m)) none) := by
    simp [hst2, hst1]
  have hchat := flushEndCore_chatLog env
    { st2 with now := t + arriveDelay env st.lastReplyAt t m, inflight := ([] : List FlushCtx) }
    (t + arriveDelay env st.lastReplyAt t m)
    ⟨pendingMsgs st ++ [m], st.lastReplyAt.getD 0 + effectiveCooldownMs env.settings⟩
    (updateMaintenanceAnalysis (appendChatMessage r ChatRole.tenant m none)
      (some (env.severityOf m)) none)
    hTen hrec2 hcomb
  have hnorm : normalizeChatLog (updateMaintenanceAnalysis
      (appendChatMessage r ChatRole.tenant m none)
      (some (env.severityOf m)) none).chatLog =
      normalizeChatLog r.chatLog ++ [⟨ChatRole.tenant, m⟩] := by
    show normalizeChatLog (appendChatMessage r ChatRole.tenant m none).chatLog = _
    rw [appendChatMessage_normalized, normalizeChatLog_singleton _ _ hmne]
  refine ⟨flushEndCore env
      { st2 with now := t + arriveDelay env st.lastReplyAt t m, inflight := ([] : List FlushCtx) }
      (t + arriveDelay env st.lastReplyAt t m)
      ⟨pendingMsgs st ++ [m], st.lastReplyAt.getD 0 + effectiveCooldownMs env.settings⟩,
    ?_, ?_, ?_⟩
  · simp only [schedRun, hstep1, hstep2, hstep3]
  · rw [hchat, hjoinTrim, hnorm]
  · exact (jsJoin_suffix_last "\n---\n" (pendingMsgs st) m).isInfix

/-- An existing conversation used by the C10 witness. -/
def c10Rec : Record :=
  ⟨[⟨ChatRole.tenant, "older"⟩], [], true, "idle", none, none, ""⟩

/-- Scheduler state holding the C10 witness conversation. -/
def c10State : SchedState :=
  ⟨0, some c10Rec, none, [], none, [], []⟩

/-- Witness for C10 at a concrete input. -/
theorem delayed_message_recorded_twice_witness :
    ∃ stF, schedRun envA c10State [.arrive 5 "drip again",
        .flushBegin (5 + arriveDelay envA c10State.lastReplyAt 5 "drip again"),
        .flushEnd (5 + arriveDelay envA c10State.lastReplyAt 5 "drip again")] = some stF ∧
      (stF.record.map Record.chatLog).getD [] =
        normalizeChatLog c10Rec.chatLog ++ [⟨ChatRole.tenant, "drip again"⟩] ++
          [⟨ChatRole.tenant, jsJoin "\n---\n" (pendingMsgs c10State ++ ["drip again"])⟩] ++
          (if (!(jsTrim (envA.draftOf
                (jsJoin "\n---\n" (pendingMsgs c10State ++ ["drip again"]))) == "") &&
              envA.canAutoReply) = true then
            [⟨ChatRole.ai, jsTrim (envA.draftOf
              (jsJoin "\n---\n" (pendingMsgs c10State ++ ["drip again"])))⟩]
          else []) ∧
      "drip again".data <:+:
        (jsJoin "\n---\n" (pendingMsgs c10State ++ ["drip again"])).data :=
  delayed_message_recorded_twice envA c10State c10Rec 5 "drip again"
    rfl rfl (by decide) (by decide) (by decide) rfl

/-! ## Inbound router: the Evolution webhook (src/routes/webhooks.ts lines
344-626) and the Twilio webhook (lines 35-56).  Payloads are modelled at the
granularity the extraction helpers read them; provider fields that feed the
same JS `||` chain position are folded together (`remoteJid` stands for
`data.key.remoteJid || data.from || data.sender || data.remoteJid`).  The
`data.message` field is distinguished as absent, a raw string, or an object,
because the text-extraction chain ends in `|| data?.message`: a caption-less
message object is returned as-is, and the route's subsequent `.trim()` call
on it throws, landing in the catch-all 500 handler. -/

/-- The `data.message` field of an Evolution payload: either a raw string or
a message object.  In the object, absent string sub-fields are `""`
(JS-falsy) and media sub-objects are a presence flag plus their caption
(`hasAudio` stands for `audioMessage || ptt` presence; a sticker or other
unrecognised media is an object with every modelled field absent). -/
inductive EvoMessage
  | str (value : String)
  | obj (conversation : String) (extendedText : String) (text : String)
      (hasImage : Bool) (imageCaption : String)
      (hasVideo : Bool) (videoCaption : String)
      (hasAudio : Bool) (hasDocument : Bool) (documentCaption : String)
deriving DecidableEq, Repr

/-- An Evolution webhook payload at the granularity the extraction helpers
read it: `message` is absent, a raw string, or a message object; `dataText`
is `data.text`; absent string fields are `""`. -/
structure EvoPayload where
  message : Option EvoMessage
  dataText : String
  remoteJid : String
  participant : String
  fromMe : Bool
deriving DecidableEq, Repr

/-- A JS value as produced by the text-extraction `||` chain: a string, or
the raw `data.message` object (the chain's `data?.message` fallback when
every string candidate is falsy but the object exists). -/
inductive JsVal
  | str (s : String)
  | obj
deriving DecidableEq, Repr

/-- `extractWhatsAppText` (webhooks.ts lines 92-104): the `||` chain over
`conversation`, `extendedTextMessage.text`, `message.text`, the image and
video captions, `data.text`, and finally `data.message` itself — which, when
`message` is a caption-less object, yields the object rather than a
string. -/
def extractWhatsAppText (p : EvoPayload) : JsVal :=
  match p.message with
  | none => .str p.dataText
  | some (.str value) => .str (jsOrS p.dataText value)
  | some (.obj conv ext txt hasImage imageCap hasVideo videoCap _ _ _) =>
    let chained := jsOrS conv (jsOrS ext (jsOrS txt
      (jsOrS (if hasImage then imageCap else "")
        (jsOrS (if hasVideo then videoCap else "") p.dataText))))
    if chained == "" then .obj else .str chained

/-- `extractWhatsAppMediaDescription` (webhooks.ts lines 106-118): only a
message object can carry media sub-objects. -/
def extractWhatsAppMediaDescription (p : EvoPayload) : String :=
  match p.message with
  | some (.obj _ _ _ hasImage imageCap hasVideo videoCap hasAudio hasDocument docCap) =>
    let caption := jsOrS (if hasImage then imageCap else "")
      (jsOrS (if hasVideo then videoCap else "")
        (if hasDocument then docCap else ""))
    if hasImage then jsTrim ("[image received] " ++ caption)
    else if hasVideo then jsTrim ("[video received] " ++ caption)
    else if hasAudio then jsTrim "[voice note received]"
    else if hasDocument then jsTrim ("[document received] " ++ caption)
    else ""
  | _ => ""

/-- `normalizeWhatsAppNumber` (whatsappService.ts lines 33-41). -/
def normalizeWhatsAppNumber (raw : String) : String :=
  if raw == "" then ""
  else
    let trimmed := jsTrim raw
    if trimmed == "" then ""
    else if trimmed.data.contains '@' then String.mk (trimmed.data.takeWhile (· ≠ '@'))
    else String.mk (trimmed.data.filter fun c => !isJsWs c)

/-- JS `s.startsWith(pre)`, character-wise. -/
def jsStartsWith (s pre : String) : Bool :=
  pre.data.isPrefixOf s.data

/-- JS `s.endsWith(post)`, character-wise. -/
def jsEndsWith (s post : String) : Bool :=
  post.data.reverse.isPrefixOf s.data.reverse

/-- Sender information derived from a payload. -/
structure SenderInfo where
  remoteJid : String
  participant : String
  isGroup : Bool
  sender : String
  replyTo : String
deriving DecidableEq, Repr

/-- `extractWhatsAppSenderInfo` (webhooks.ts lines 120-130). -/
def extractWhatsAppSenderInfo (p : EvoPayload) : SenderInfo :=
  let remoteJid := p.remoteJid
  let participant := p.participant
  let isGroup := jsEndsWith remoteJid "@g.us"
  let sender := if isGroup then normalizeWhatsAppNumber participant
    else normalizeWhatsAppNumber remoteJid
  let replyTo := normalizeWhatsAppNumber (jsOrS remoteJid sender)
  ⟨remoteJid, participant, isGroup, sender, replyTo⟩

/-- `normalizePhone` (webhooks.ts lines 73-76): strip every non-digit. -/
def normalizePhone (raw : String) : String :=
  if raw == "" then "" else String.mk (raw.data.filter Char.isDigit)

/-- `isLandlordNumber` (webhooks.ts lines 86-90), over the configured
landlord numbers. -/
def isLandlordNumber (numbers : List String) (phone : String) : Bool :=
  let normalized := normalizePhone phone
  if normalized == "" then false
  else numbers.any fun num => normalizePhone num == normalized

/-- `[text, mediaNote].filter(Boolean).join(" ").trim()` (webhooks.ts
line 351). -/
def inboundContentOf (text mediaNote : String) : String :=
  jsTrim (jsJoin " " (([text, mediaNote]).filter fun s => !(s == "")))

/-- The inbound content the Evolution route derives from a payload: `none`
when the text extraction yields the raw message object (so line 349's
`.trim()` throws before any content is computed). -/
def routeInboundContent (p : EvoPayload) : Option String :=
  match extractWhatsAppText p with
  | .obj => none
  | .str raw =>
    some (inboundContentOf (jsTrim raw) (jsTrim (extractWhatsAppMediaDescription p)))

/-- The landlord heuristic `/(draft|tenant\s*reply|tenant\s*message|forward|send to tenant|ok to send|approve|push)/i`
(webhooks.ts line 410), modelled as case-insensitive substring tests with the
`\s*` between words taken as one space. -/
def wantsDraftHeuristic (text : String) : Bool :=
  ["draft", "tenant reply", "tenant message", "forward", "send to tenant",
    "ok to send", "approve", "push"].any fun kw => jsIncludes (jsToLower text) kw

/-- The approval heuristic `/approve|approved|send it|ok to send/i`
(webhooks.ts line 489). -/
def approvedHeuristic (text : String) : Bool :=
  ["approve", "approved", "send it", "ok to send"].any fun kw =>
    jsIncludes (jsToLower text) kw

/-- A registered contractor (directory collaborator). -/
structure Contractor where
  name : String
  phone : String
deriving DecidableEq, Repr

/-- Environment of the inbound router: the scheduler collaborators plus the
directory lookups and the opaque landlord-advisor outputs (the LLM response
field-extraction chains of webhooks.ts lines 422-478 are folded into these
oracle strings, per the spec's opaque-collaborator contracts). -/
structure RouteEnv where
  sched : SchedulerEnv
  tenantOf : String → Bool
  contractorOf : String → Option Contractor
  advisorAnalysis : String
  advisorTenantDraft : String
  advisorChatReply : String

/-- Response of the Evolution route: an `ok: true` acknowledgement whose
`ignored`/`routed` field is the routing decision taken, or the catch-all
hard 500 (`res.status(500).json({error: "whatsapp_webhook_failed", ...})`,
webhooks.ts line 624). -/
inductive EvoResp
  | ignored (reason : String)
  | routed (label : String)
  | error (e : String)
deriving DecidableEq, Repr

/-- The landlord path (webhooks.ts lines 382-503). -/
def landlordBranch (env : RouteEnv) (st : SchedState) (t : Nat) (sender text : String) :
    EvoResp × SchedState :=
  match st.record with
  | none =>
    (.routed "landlord_no_active",
      { st with sends := st.sends ++
        [⟨t, SendKind.landlordAssist, sender, "No active tenant requests right now.", 0⟩] })
  | some record =>
    let r1 := appendChatMessage record ChatRole.landlord text (some text)
    let baseDraft := record.aiDraftText.getD ""
    let wantsDraft := wantsDraftHeuristic text
    let tenantDraft := if wantsDraft then
        jsOrS (jsTrim env.advisorTenantDraft) (jsTrim baseDraft)
      else ""
    let (r2, assistSend) :=
      if wantsDraft then
        let analysis := jsTrim env.advisorAnalysis
        let labeled := "AI Assistance:\nAction: " ++ jsOrS analysis "No analysis" ++
          "\nTenant draft: " ++ jsOrS tenantDraft "No draft yet"
        let r2a := appendChatMessage r1 ChatRole.ai labeled none
        let r2b := { r2a with aiDraftText := some (jsOrS tenantDraft baseDraft) }
        (r2b, (⟨t, SendKind.landlordAssist, sender, labeled, 0⟩ : Send))
      else
        let chatReply := jsOrS env.advisorChatReply
          "I’m here. Ask anything about the issue, approvals, or next steps."
        let r2a := appendChatMessage r1 ChatRole.ai ("AI Assistance: " ++ chatReply) none
        (r2a, (⟨t, SendKind.landlordAssist, sender, "AI Assistance: " ++ chatReply, 0⟩ : Send))
    let approved := approvedHeuristic text
    let forwardDraft := jsTrim (jsOrS tenantDraft (record.aiDraftText.getD ""))
    let doForward := approved && env.sched.tenantExists && !(forwardDraft == "") &&
      !(env.sched.tenantPhone == "")
    let r3 := if doForward then appendChatMessage r2 ChatRole.ai forwardDraft none else r2
    let forwardSends := if doForward then
        [(⟨t, SendKind.forwardedDraft, env.sched.tenantPhone, forwardDraft, 0⟩ : Send)]
      else []
    (.routed "landlord", { st with
      record := some r3
      sends := st.sends ++ [assistSend] ++ forwardSends })

/-- The Evolution webhook handler (webhooks.ts lines 344-626): text/media
extraction, sender resolution, self-echo handling, then dispatch to the
landlord, tenant (via `arriveCore`), contractor-relay or unknown-sender
path.  When `extractWhatsAppText` yields the raw message object, line 349's
`.trim()` throws a TypeError and the catch clause answers the hard 500. -/
def routeEvolution (env : RouteEnv) (st : SchedState) (t : Nat) (p : EvoPayload) :
    EvoResp × SchedState :=
  match extractWhatsAppText p with
  | .obj => (.error "whatsapp_webhook_failed", st)
  | .str raw =>
  let text := jsTrim raw
  let inboundContent :=
    inboundContentOf text (jsTrim (extractWhatsAppMediaDescription p))
  if inboundContent == "" then (.ignored "no_text", st)
  else
    let info := extractWhatsAppSenderInfo p
    if info.sender == "" then
      (.ignored (if info.isGroup then "no_group_participant" else "no_sender"), st)
    else if p.fromMe && !isLandlordNumber env.sched.landlordNumbers info.sender then
      (.ignored "from_me", st)
    else if p.fromMe && jsStartsWith text "AI Assistance:" then
      (.ignored "from_me_ai_echo", st)
    else
      let isLandlord := !info.isGroup && isLandlordNumber env.sched.landlordNumbers info.sender
      if isLandlord then landlordBranch env st t info.sender text
      else if env.tenantOf info.sender then
        let schedEnv := { env.sched with replyTo := info.replyTo }
        let st' := arriveCore schedEnv st t inboundContent
        if arriveDelay schedEnv st.lastReplyAt t inboundContent == 0 then
          (.routed "tenant", st')
        else (.routed "tenant_queued", st')
      else
        match env.contractorOf info.sender with
        | some c =>
          let note := "Contractor " ++ c.name ++ " (" ++ c.phone ++ ") says: " ++
            inboundContent
          (.routed "contractor", { st with sends := st.sends ++
            (env.sched.landlordNumbers.map fun n =>
              (⟨t, SendKind.contractorRelay, n, note, 0⟩ : Send)) })
        | none => (.ignored "unknown_sender", st)

/-- C7 (amended): an inbound message whose text extraction yields a string
(not the raw message object) and whose resolvable sender is neither a
registered tenant nor a registered contractor — and is not a configured
landlord number messaging directly, and not a self-echo — is acknowledged as
ignored with reason "unknown_sender", with no message sent to anyone and no
conversation created or modified (the state is returned untouched). -/
theorem unknown_sender_silent (env : RouteEnv) (st : SchedState) (t : Nat) (p : EvoPayload)
    (raw : String) (hstr : extractWhatsAppText p = .str raw)
    (hC : ¬(inboundContentOf (jsTrim raw)
      (jsTrim (extractWhatsAppMediaDescription p)) = ""))
    (hS : ¬((extractWhatsAppSenderInfo p).sender = ""))
    (hFM : p.fromMe = false)
    (hL : (extractWhatsAppSenderInfo p).isGroup = false →
      isLandlordNumber env.sched.landlordNumbers (extractWhatsAppSenderInfo p).sender = false)
    (hT : env.tenantOf (extractWhatsAppSenderInfo p).sender = false)
    (hK : env.contractorOf (extractWhatsAppSenderInfo p).sender = none) :
    routeEvolution env st t p = (.ignored "unknown_sender", st) := by
  have hC' : (inboundContentOf (jsTrim raw)
      (jsTrim (extractWhatsAppMediaDescription p)) == "") = false := by
    cases hx : (inboundContentOf (jsTrim raw)
        (jsTrim (extractWhatsAppMediaDescription p)) == "") with
    | false => rfl
    | true => exact absurd (by simpa using hx) hC
  have hS' : ((extractWhatsAppSenderInfo p).sender == "") = false := by
    cases hx : ((extractWhatsAppSenderInfo p).sender == "") with
    | false => rfl
    | true => exact absurd (by simpa using hx) hS
  have hIsL : (!(extractWhatsAppSenderInfo p).isGroup &&
      isLandlordNumber env.sched.landlordNumbers (extractWhatsAppSenderInfo p).sender) = false := by
    cases hg : (extractWhatsAppSenderInfo p).isGroup with
    | true => simp [hg]
    | false => simp [hg, hL hg]
  simp [routeEvolution, hstr, hC', hS', hFM, hIsL, hT, hK]

/-- Concrete environment for the C7 witness: empty directories, no landlord
numbers. -/
def envC : RouteEnv :=
  { sched := envA
    tenantOf := fun _ => false
    contractorOf := fun _ => none
    advisorAnalysis := ""
    advisorTenantDraft := ""
    advisorChatReply := "" }

/-- Concrete unknown-sender payload for the C7 witness. -/
def payloadC : EvoPayload :=
  ⟨some (.obj "hi there" "" "" false "" false "" false false ""), "", "17770001111", "", false⟩

/-- Witness for C7's amended theorem at a concrete input. -/
theorem unknown_sender_silent_witness :
    routeEvolution envC (initState none) 3 payloadC =
      (.ignored "unknown_sender", initState none) :=
  unknown_sender_silent envC (initState none) 3 payloadC "hi there"
    (by decide) (by decide) (by decide) rfl (fun _ => by decide) rfl rfl

/-- Concrete environment for the C7 counterexample: one configured landlord
number, empty tenant and contractor directories. -/
def envD : RouteEnv :=
  { sched := { envA with landlordNumbers := ["15551234567"] }
    tenantOf := fun _ => false
    contractorOf := fun _ => none
    advisorAnalysis := ""
    advisorTenantDraft := ""
    advisorChatReply := "" }

/-- Direct message from the configured landlord number. -/
def payloadD : EvoPayload :=
  ⟨some (.obj "hello" "" "" false "" false "" false false ""), "", "15551234567", "", false⟩

/-- A caption-less sticker (a message object with every recognised field
absent) from an unregistered number. -/
def payloadSticker : EvoPayload :=
  ⟨some (.obj "" "" "" false "" false "" false false ""), "", "17770001111", "", false⟩

/-- Counterexample for C7 as stated, in two parts.  First: the sender
"15551234567" is in neither the tenant nor the contractor directory, yet the
route sends it a message ("No active tenant requests right now.") because it
is a configured landlord number.  Second: a caption-less sticker from
"17770001111" — also in neither directory — is answered with a hard 500
(`whatsapp_webhook_failed`), not acknowledged as ignored "unknown_sender",
because the text extractor returns the raw message object and the route's
`.trim()` call on it throws.  So neither "no message is sent to that sender"
nor "acknowledged as ignored with reason unknown_sender" holds for every
sender outside the two directories. -/
theorem landlord_sender_receives_reply_counterexample :
    (envD.tenantOf "15551234567" = false ∧
      envD.contractorOf "15551234567" = none ∧
      (extractWhatsAppSenderInfo payloadD).sender = "15551234567" ∧
      routeEvolution envD (initState none) 7 payloadD =
        (.routed "landlord_no_active",
          ⟨0, none, none, [], none,
            [⟨7, SendKind.landlordAssist, "15551234567",
              "No active tenant requests right now.", 0⟩], []⟩)) ∧
    (envD.tenantOf "17770001111" = false ∧
      envD.contractorOf "17770001111" = none ∧
      (extractWhatsAppSenderInfo payloadSticker).sender = "17770001111" ∧
      routeEvolution envD (initState none) 7 payloadSticker =
        (.error "whatsapp_webhook_failed", initState none)) := by
  refine ⟨⟨rfl, rfl, by decide, by decide⟩, ⟨rfl, rfl, by decide, by decide⟩⟩

/-! ### C8: empty/malformed payloads -/

/-- A Twilio webhook request body (`req.body?.Body || ""`,
`req.body?.From || ""`). -/
structure TwilioBody where
  bodyText : String
  fromPhone : String
deriving DecidableEq, Repr

/-- Outcome of the Twilio webhook handler (webhooks.ts lines 35-56): either a
hard 400 error or delegation into the maintenance flow. -/
inductive TwilioResult
  | badRequest (error : String)
  | delegated (tenantMessage tenantId : String)
deriving DecidableEq, Repr

/-- The Twilio webhook handler body (webhooks.ts lines 37-52). -/
def twilioPost (b : TwilioBody) : TwilioResult :=
  if b.bodyText == "" then .badRequest "missing_message_body"
  else .delegated b.bodyText b.fromPhone

/-- A caption-less voice note: `message.audioMessage` present, every text
field absent. -/
def payloadVoiceNote : EvoPayload :=
  ⟨some (.obj "" "" "" false "" false "" true false ""), "", "17770001111", "", false⟩

/-- Counterexample for C8 as stated, in two parts.  First: an inbound Twilio
payload with empty content is answered with a hard 400 error
(`missing_message_body`), not an ok/ignored acknowledgement.  Second: on the
Evolution webhook a caption-less voice note — which HAS a recognizable media
description ("[voice note received]") — is answered with a hard 500
(`whatsapp_webhook_failed`): the text-extraction chain falls through to
`data?.message` and returns the message object, and line 349's `.trim()` on
it throws before the media description is ever read. -/
theorem twilio_empty_body_hard_error :
    twilioPost ⟨"", "+15550001111"⟩ = .badRequest "missing_message_body" ∧
    extractWhatsAppMediaDescription payloadVoiceNote = "[voice note received]" ∧
    routeEvolution envC (initState none) 9 payloadVoiceNote =
      (.error "whatsapp_webhook_failed", initState none) := by
  refine ⟨rfl, by decide, by decide⟩

/-- The all-empty Evolution payload (no `message`, no `data.text`). -/
def payloadEmpty : EvoPayload :=
  ⟨none, "", "x@g.us", "", false⟩

/-- C8 (amended): on the Evolution webhook, a payload whose text extraction
yields a string and whose combined content (text plus media description) is
empty is acknowledged as a no-op (`ok` with reason "no_text") with the state
untouched; but a payload whose text extraction falls through to the raw
message object (a caption-less media message with empty `data.text`) is
answered with a hard 500 (`whatsapp_webhook_failed`), and the Twilio webhook
rejects an empty body with a hard 400 error. -/
theorem evolution_empty_content_noop (env : RouteEnv) (st : SchedState) (t : Nat)
    (p : EvoPayload) :
    (routeInboundContent p = some "" →
      routeEvolution env st t p = (.ignored "no_text", st)) ∧
    (routeInboundContent p = none →
      routeEvolution env st t p = (.error "whatsapp_webhook_failed", st)) := by
  cases hx : extractWhatsAppText p with
  | str s =>
    constructor
    · intro h
      simp only [routeInboundContent, hx, Option.some.injEq] at h
      have h' : (inboundContentOf (jsTrim s)
          (jsTrim (extractWhatsAppMediaDescription p)) == "") = true := by simp [h]
      simp [routeEvolution, hx, h']
    · intro h
      simp [routeInboundContent, hx] at h
  | obj =>
    constructor
    · intro h
      simp [routeInboundContent, hx] at h
    · intro _
      simp [routeEvolution, hx]

/-- Witness for C8's amended theorem: the all-empty payload is a no-op, and
the caption-less sticker is a hard 500. -/
theorem evolution_empty_content_noop_witness :
    routeEvolution envC (initState none) 4 payloadEmpty =
      (.ignored "no_text", initState none) ∧
    routeEvolution envC (initState none) 4 payloadSticker =
      (.error "whatsapp_webhook_failed", initState none) :=
  ⟨(evolution_empty_content_noop envC (initState none) 4 payloadEmpty).1 (by decide),
   (evolution_empty_content_noop envC (initState none) 4 payloadSticker).2 (by decide)⟩
